import Mathlib

/-!
Shallow embedding of the tg-planner acquisition core
(`src/etl/parser/wb_client.py` and `src/etl/parser/wb_parser_async.py`).

JSON/Python values are modelled by the inductive `PyVal` (floats, bytes and
non-string dictionary keys do not occur in the payloads the claims concern and
are outside the modelled fragment; the `rating` field, a float, is therefore
omitted from the record model).  Network I/O is modelled by an oracle
(`Network`) giving the JSON payload each endpoint would deliver for an input,
and by outcome streams for the retry loop.  All functions are translated
statement-by-statement from the Python source.
-/

/-- Model of a Python/JSON value as it appears in the parsed payloads. -/
inductive PyVal where
  | none
  | bool (b : Bool)
  | int (n : Int)
  | str (s : String)
  | list (xs : List PyVal)
  | dict (kvs : List (String × PyVal))

/-- Characters removed by Python `str.strip()` (ASCII whitespace). -/
def isPySpace (c : Char) : Bool :=
  (c == ' ') || (c == '\t') || (c == '\n') || (c == '\r') ||
    (c == Char.ofNat 11) || (c == Char.ofNat 12)

/-- Model of Python `str.strip()` on the underlying character list. -/
def stripChars (l : List Char) : List Char :=
  ((l.dropWhile isPySpace).reverse.dropWhile isPySpace).reverse

/-- Model of Python `str.strip()`. -/
def pyStrip (s : String) : String :=
  String.mk (stripChars s.data)

/-- A string is blank when `value.strip()` is falsy (empty). -/
def isBlank (s : String) : Bool :=
  (stripChars s.data).isEmpty

/-- Decimal digit character for a digit `0..9` (other inputs map to `9`). -/
def digitChar (d : Nat) : Char :=
  match d with
  | 0 => '0' | 1 => '1' | 2 => '2' | 3 => '3' | 4 => '4'
  | 5 => '5' | 6 => '6' | 7 => '7' | 8 => '8' | _ => '9'

/-- Decimal digits of a natural number, most significant first. -/
def natDigits (n : Nat) : List Char :=
  if _h : n < 10 then [digitChar n]
  else natDigits (n / 10) ++ [digitChar (n % 10)]
  termination_by n
  decreasing_by
    exact Nat.div_lt_self (by omega) (by omega)

/-- Model of Python `str(i)` for an integer. -/
def pyStrInt (i : Int) : String :=
  if i < 0 then String.mk ('-' :: natDigits i.natAbs)
  else String.mk (natDigits i.toNat)

mutual
/-- Model of Python `repr(value)` on the modelled fragment (string quoting is
modelled as always single-quote). -/
def pyReprOf : PyVal → String
  | .none => "None"
  | .bool true => "True"
  | .bool false => "False"
  | .int n => pyStrInt n
  | .str s => "\x27" ++ s ++ "\x27"
  | .list xs => "[" ++ pyReprList xs ++ "]"
  | .dict kvs => "\x7b" ++ pyReprKVs kvs ++ "\x7d"

/-- Comma-separated reprs of list elements. -/
def pyReprList : List PyVal → String
  | [] => ""
  | [v] => pyReprOf v
  | v :: rest => pyReprOf v ++ ", " ++ pyReprList rest

/-- Comma-separated reprs of dictionary items. -/
def pyReprKVs : List (String × PyVal) → String
  | [] => ""
  | [(k, v)] => "\x27" ++ k ++ "\x27: " ++ pyReprOf v
  | (k, v) :: rest => "\x27" ++ k ++ "\x27: " ++ pyReprOf v ++ ", " ++ pyReprKVs rest
end

/-- Model of Python `str(value)`; `str` of a string is itself, everything else
falls back to its repr (as CPython does for the modelled constructors). -/
def pyStrOf : PyVal → String
  | .str s => s
  | v => pyReprOf v

/-- Python truthiness of a modelled value. -/
def pyTruthyVal : PyVal → Bool
  | .none => false
  | .bool b => b
  | .int n => n != 0
  | .str s => !s.data.isEmpty
  | .list xs => !xs.isEmpty
  | .dict kvs => !kvs.isEmpty

/-- Python truthiness of an optional string (as in `if candidate:`). -/
def pyTruthyStr : Option String → Bool
  | Option.none => false
  | some s => !s.data.isEmpty

/-- First value stored under a key in an association-list dictionary. -/
def lookupKey (kvs : List (String × PyVal)) (k : String) : Option PyVal :=
  match kvs with
  | [] => Option.none
  | (k₀, v) :: rest => if k₀ = k then some v else lookupKey rest k

/-- Model of `data.get(key)` (missing key yields Python `None`). -/
def pyGet (kvs : List (String × PyVal)) (k : String) : PyVal :=
  match lookupKey kvs k with
  | some v => v
  | Option.none => PyVal.none

/-- Value of a list of decimal digit characters. -/
def digitsToNat (l : List Char) : Nat :=
  l.foldl (fun acc c => acc * 10 + (c.toNat - 48)) 0

/-- Model of Python `int(s)` for a string: optional surrounding whitespace,
optional sign, a non-empty digit run (underscore separators not modelled). -/
def parsePyIntStr (s : String) : Option Int :=
  match stripChars s.data with
  | '+' :: rest =>
      if rest.isEmpty then Option.none
      else if rest.all Char.isDigit then some (digitsToNat rest) else Option.none
  | '-' :: rest =>
      if rest.isEmpty then Option.none
      else if rest.all Char.isDigit then some (-(digitsToNat rest : Int)) else Option.none
  | l =>
      if l.isEmpty then Option.none
      else if l.all Char.isDigit then some (digitsToNat l) else Option.none

/-- Model of Python `int(float(s))` for plain decimal literals: optional sign,
digits with an optional fractional part, truncated toward zero (exponents,
`inf` and `nan` are outside the modelled fragment). -/
def parseFloatTruncInt (s : String) : Option Int :=
  let t := stripChars s.data
  let sb : Int × List Char :=
    match t with
    | '+' :: rest => (1, rest)
    | '-' :: rest => (-1, rest)
    | l => (1, l)
  let intPart := sb.2.takeWhile Char.isDigit
  match sb.2.drop intPart.length with
  | [] => if intPart.isEmpty then Option.none else some (sb.1 * digitsToNat intPart)
  | '.' :: frac =>
      if frac.all Char.isDigit then
        if intPart.isEmpty && frac.isEmpty then Option.none
        else some (sb.1 * digitsToNat intPart)
      else Option.none
  | _ => Option.none

/-!
Embedding of `src/etl/parser/wb_client.py`.
-/

/-- Retry limit `MAX_RETRIES` of `wb_client.py`. -/
def MAX_RETRIES : Nat := 4

/-- Maximum basket host number `MAX_BASKET_HOST` of `wb_client.py`. -/
def MAX_BASKET_HOST : Int := 32

/-- The 31-entry ascending volume threshold table `_BASKET_VOL_THRESHOLDS`. -/
def basketVolThresholds : List Int :=
  [143, 287, 431, 719, 1007, 1061, 1115, 1169, 1313, 1601, 1655, 1919, 2045,
   2189, 2405, 2621, 2837, 3053, 3269, 3485, 3701, 3917, 4133, 4349, 4565,
   4877, 5189, 5501, 5813, 6125, 6437]

/-- Model of `bisect.bisect_left` on a sorted list: the leftmost insertion
point, i.e. the index of the first element that is not below `v`. -/
def bisectLeft (v : Int) : List Int → Nat
  | [] => 0
  | t :: rest => if t < v then bisectLeft v rest + 1 else 0

/-- Unicode numeric classification of one character, as CPython reads it
from the Unicode character database: `decimal d` for Numeric_Type=Decimal
digits of value `d` (general category Nd — accepted by `int()`, matched by
`str.isdigit` and by the regex class `\d`); `digitOnly` for characters with
Numeric_Type=Digit but not Decimal, such as superscript two U+00B2 (matched
by `str.isdigit` but rejected by `int()` and not matched by `\d`); `other`
for everything else. -/
inductive CharNumeric where
  | decimal (d : Nat)
  | digitOnly
  | other
deriving DecidableEq

/-- Oracle for the Unicode character database — external data the program
reads through `str.isdigit`, `int()` and the `re` module.  Any conforming
table agrees with ASCII (digits `0`–`9` decimal with their usual values,
other ASCII characters non-numeric) and gives decimal digits values below
10. -/
structure UnicodeTable where
  classify : Char → CharNumeric
  ascii_digit : ∀ c : Char, 48 ≤ c.toNat → c.toNat ≤ 57 →
    classify c = CharNumeric.decimal (c.toNat - 48)
  ascii_nondigit : ∀ c : Char, c.toNat < 128 → ¬(48 ≤ c.toNat ∧ c.toNat ≤ 57) →
    classify c = CharNumeric.other
  decimal_lt_ten : ∀ c d, classify c = CharNumeric.decimal d → d < 10

/-- Per-character test of Python `str.isdigit`: Numeric_Type Decimal or
Digit. -/
def pyIsDigit (T : UnicodeTable) (c : Char) : Bool :=
  match T.classify c with
  | .decimal _ => true
  | .digitOnly => true
  | .other => false

/-- Per-character test of the regex class `\d`: category Nd (decimal). -/
def isNd (T : UnicodeTable) (c : Char) : Bool :=
  match T.classify c with
  | .decimal _ => true
  | _ => false

/-- Decimal value `int()` uses for one character (`none` means `int()` has
no value for it and raises `ValueError`). -/
def decimalVal (T : UnicodeTable) (c : Char) : Option Nat :=
  match T.classify c with
  | .decimal d => some d
  | _ => Option.none

/-- Accumulating scan of `int()` over a digit candidate. -/
def intOfDigitCharsAux (T : UnicodeTable) : Option Nat → List Char → Option Nat
  | acc, [] => acc
  | acc, c :: rest =>
      intOfDigitCharsAux T
        (match acc, decimalVal T c with
         | some a, some d => some (a * 10 + d)
         | _, _ => Option.none) rest

/-- Model of `int()` on a digit candidate: its base-10 value when every
character has a decimal value, `ValueError` (`none`) otherwise. -/
def intOfDigitChars (T : UnicodeTable) (l : List Char) : Option Nat :=
  intOfDigitCharsAux T (some 0) l

/-- First maximal run of `\d` (decimal digit) characters: the group matched
by `NM_PATTERN`, whose boundaries are non-`\d` characters or the string
ends. -/
def firstNdRun (T : UnicodeTable) (l : List Char) : List Char :=
  (l.dropWhile (fun c => !isNd T c)).takeWhile (isNd T)

/-- Python exception escaping the modelled code. -/
inductive PyError where
  | valueError
deriving DecidableEq

instance exceptDecEq {ε α : Type} [DecidableEq ε] [DecidableEq α] :
    DecidableEq (Except ε α) := fun x y =>
  match x, y with
  | .error e₁, .error e₂ =>
      if h : e₁ = e₂ then isTrue (by rw [h]) else isFalse (fun hh => h (by injection hh))
  | .ok a₁, .ok a₂ =>
      if h : a₁ = a₂ then isTrue (by rw [h]) else isFalse (fun hh => h (by injection hh))
  | .error _, .ok _ => isFalse (fun hh => Except.noConfusion hh)
  | .ok _, .error _ => isFalse (fun hh => Except.noConfusion hh)

/-- Model of `extract_nm` over a Unicode table `T`.  Fallible: the
`int(candidate)` call of the `isdigit` branch is outside any `try`, so a
candidate that `str.isdigit` accepts but `int()` cannot parse — one
containing a `digitOnly` character such as `"²"` — raises an uncaught
`ValueError`; the regex path's `int` is guarded by `except ValueError` and
falls through to absent instead.  Python `bool` is an `int` subtype, so it
takes the integer branch; surrounding whitespace is modelled as ASCII
whitespace, as in `pyStrip`. -/
def extract_nm (T : UnicodeTable) : PyVal → Except PyError (Option Int)
  | .int n => .ok (if n > 0 then some n else Option.none)
  | .bool b => .ok (if b then some 1 else Option.none)
  | .str s =>
      let candidate := stripChars s.data
      if !candidate.isEmpty && candidate.all (pyIsDigit T) then
        match intOfDigitChars T candidate with
        | some v => .ok (if (v : Int) > 0 then some (v : Int) else Option.none)
        | Option.none => .error PyError.valueError
      else
        let run := firstNdRun T candidate
        if run.isEmpty then .ok Option.none
        else
          match intOfDigitChars T run with
          | some v => .ok (some (v : Int))
          | Option.none => .ok Option.none
  | _ => .ok Option.none

/-- The ASCII fragment of the Unicode character database: digits `0`–`9`
are decimal, every other ASCII character is non-numeric, and characters
outside ASCII are classified `other` — a conforming table for payloads
whose identifiers are ASCII. -/
def asciiNumericTable : UnicodeTable where
  classify c :=
    if 48 ≤ c.toNat ∧ c.toNat ≤ 57 then CharNumeric.decimal (c.toNat - 48)
    else CharNumeric.other
  ascii_digit := by
    intro c h1 h2
    show (if 48 ≤ c.toNat ∧ c.toNat ≤ 57 then CharNumeric.decimal (c.toNat - 48)
          else CharNumeric.other) = _
    rw [if_pos ⟨h1, h2⟩]
  ascii_nondigit := by
    intro c _ h
    show (if 48 ≤ c.toNat ∧ c.toNat ≤ 57 then CharNumeric.decimal (c.toNat - 48)
          else CharNumeric.other) = _
    rw [if_neg h]
  decimal_lt_ten := by
    intro c d h
    replace h : (if 48 ≤ c.toNat ∧ c.toNat ≤ 57 then CharNumeric.decimal (c.toNat - 48)
        else CharNumeric.other) = CharNumeric.decimal d := h
    by_cases hc : 48 ≤ c.toNat ∧ c.toNat ≤ 57
    · rw [if_pos hc] at h
      cases h
      omega
    · rw [if_neg hc] at h
      cases h

/-- Identifier extraction as the pipeline model uses it: the value of a
completed `extract_nm` run over the ASCII table.  An input on which
`extract_nm` raises aborts the whole `fetch_product_raw` coroutine before
any fetch and produces no record, so the record-level claims concern
completed runs, whose modelled identifiers are ASCII (the error collapse
below is proved unreachable for the ASCII table). -/
def extract_nm_ok (v : PyVal) : Option Int :=
  match extract_nm asciiNumericTable v with
  | .ok r => r
  | .error _ => Option.none

/-- Model of `_request_with_retries`.  The outcomes of the individual
`_single_request` calls are supplied as an oracle `outcomes` (attempt number ↦
parsed JSON object, or `none` for any transport error, HTTP error status or
JSON decode failure, all of which `_single_request` absorbs).  Returns the
result, the number of attempts performed, and the list of attempt numbers
after which `_sleep_with_backoff` ran. -/
def requestAttempts (outcomes : Nat → Option PyVal) :
    Nat → Nat → PyVal × Nat × List Nat
  | _, 0 => (PyVal.dict [], 0, [])
  | attempt, fuel + 1 =>
      match outcomes attempt with
      | some d => (d, 1, [])
      | Option.none =>
          if fuel = 0 then (PyVal.dict [], 1, [])
          else
            let r := requestAttempts outcomes (attempt + 1) fuel
            (r.1, r.2.1 + 1, attempt :: r.2.2)

/-- Model of `_request_with_retries`: up to `MAX_RETRIES` attempts starting at
attempt number 1. -/
def requestWithRetries (outcomes : Nat → Option PyVal) : PyVal × Nat × List Nat :=
  requestAttempts outcomes 1 MAX_RETRIES

/-- Candidate accumulation loop of `_guess_basket_hosts`: skips candidates
outside `[1, 32]` and already-collected ones, appending the rest in order
(the Python `seen` set always equals the set of collected candidates). -/
def guessFold : List Int → List Int → List Int
  | [], acc => acc
  | c :: rest, acc =>
      if c < 1 ∨ c > MAX_BASKET_HOST ∨ c ∈ acc then guessFold rest acc
      else guessFold rest (acc ++ [c])

/-- Model of `_guess_basket_hosts`. -/
def guessBasketHosts (vol : Int) : List Int :=
  if vol < 0 then [9, 1, 2]
  else
    let index := bisectLeft vol basketVolThresholds
    let primaryHost := min ((index : Int) + 1) MAX_BASKET_HOST
    let base := max 1 ((vol + 159).fdiv 160)
    guessFold [base, base - 1, base + 1, base - 2, base + 2] [primaryHost]

/-- Primary candidate host computed by `_guess_basket_hosts` for a
non-negative volume. -/
def primaryHostOf (vol : Int) : Int :=
  min ((bisectLeft vol basketVolThresholds : Int) + 1) MAX_BASKET_HOST

/-!
Embedding of `src/etl/parser/wb_parser_async.py`.
-/

/-- Model of `_ensure_mapping`. -/
def ensureMapping : PyVal → List (String × PyVal)
  | .dict kvs => kvs
  | _ => []

/-- Key sweep at the top of `_find_first_string`: the first of `keys` whose
value in the mapping is a non-blank string. -/
def findKeyHit (keys : List String) (kvs : List (String × PyVal)) : Option String :=
  match keys with
  | [] => Option.none
  | k :: krest =>
      match pyGet kvs k with
      | .str s => if !isBlank s then some s else findKeyHit krest kvs
      | _ => findKeyHit krest kvs

mutual
/-- Model of `_find_first_string`: depth-first search for the first non-blank
string stored under one of `keys` (strings are sequences in Python but are
excluded explicitly, as are non-container scalars). -/
def findFirstString (keys : List String) : PyVal → Option String
  | .dict kvs =>
      match findKeyHit keys kvs with
      | some s => some s
      | Option.none => findFirstStringKVs keys kvs
  | .list xs => findFirstStringList keys xs
  | _ => Option.none

/-- Recursion of `_find_first_string` over `data.values()` in mapping order. -/
def findFirstStringKVs (keys : List String) : List (String × PyVal) → Option String
  | [] => Option.none
  | (_, v) :: rest =>
      match findFirstString keys v with
      | some s => some s
      | Option.none => findFirstStringKVs keys rest

/-- Recursion of `_find_first_string` over sequence items in order. -/
def findFirstStringList (keys : List String) : List PyVal → Option String
  | [] => Option.none
  | v :: rest =>
      match findFirstString keys v with
      | some s => some s
      | Option.none => findFirstStringList keys rest
end

/-- The four description keys used by `_extract_description_from_content`. -/
def fourKeys : List String := ["description", "descriptionText", "description_html", "text"]

/-- Model of `_extract_description_from_basket`. -/
def extractDescriptionFromBasket (data : List (String × PyVal)) : Option String :=
  match pyGet data "description" with
  | .str s =>
      if !isBlank s then some s
      else findFirstString ["description"] (.dict data)
  | _ => findFirstString ["description"] (.dict data)

/-- Inner entry loop of `_extract_description_from_content`: four-key search
in each mapping entry of a nested list. -/
def contentEntriesSearch : List PyVal → Option String
  | [] => Option.none
  | .dict kvs :: rest =>
      match findFirstString fourKeys (.dict kvs) with
      | some s => some s
      | Option.none => contentEntriesSearch rest
  | _ :: rest => contentEntriesSearch rest

/-- Loop of `_extract_description_from_content` over the nested list keys
`products`, `cards`, `list` of the `data` object. -/
def contentKeysSearch (nested : List (String × PyVal)) : List String → Option String
  | [] => Option.none
  | k :: krest =>
      match pyGet nested k with
      | .list entries =>
          match contentEntriesSearch entries with
          | some s => some s
          | Option.none => contentKeysSearch nested krest
      | _ => contentKeysSearch nested krest

/-- Model of `_extract_description_from_content`. -/
def extractDescriptionFromContent (data : List (String × PyVal)) : Option String :=
  if data.isEmpty then Option.none
  else
    let afterDirect : Option String :=
      match pyGet data "data" with
      | .dict nested =>
          match contentKeysSearch nested ["products", "cards", "list"] with
          | some s => some s
          | Option.none =>
              match findFirstString fourKeys (.dict nested) with
              | some s => some s
              | Option.none => findFirstString fourKeys (.dict data)
      | _ => findFirstString fourKeys (.dict data)
    match pyGet data "description" with
    | .str s => if !isBlank s then some s else afterDirect
    | _ => afterDirect

/-- Description cascade of `fetch_product_raw` (lines 82–87): the basket
description if truthy, otherwise the content-API description. -/
def resolveDescription (info content : List (String × PyVal)) : Option String :=
  let d := extractDescriptionFromBasket info
  if pyTruthyStr d then d else extractDescriptionFromContent content

/-- Model of `_extract_primary_product`: the first mapping entry of
`card_data["data"]["products"]`. -/
def firstMapping : List PyVal → Option (List (String × PyVal))
  | [] => Option.none
  | .dict kvs :: _ => some kvs
  | _ :: rest => firstMapping rest

/-- Model of `_extract_primary_product`. -/
def extractPrimaryProduct (card : List (String × PyVal)) : Option (List (String × PyVal)) :=
  match pyGet card "data" with
  | .dict d =>
      match pyGet d "products" with
      | .list ps => firstMapping ps
      | _ => Option.none
  | _ => Option.none

/-- Python truthiness of the extracted primary product (`if product:`), false
for both `None` and an empty mapping. -/
def productTruthy : Option (List (String × PyVal)) → Bool
  | Option.none => false
  | some kvs => !kvs.isEmpty

/-- Model of `_extract_int`: direct integers (including `bool`, an `int`
subtype) pass through, other values go through `int(value)` with `TypeError`
and `ValueError` absorbed to absent. -/
def extractInt (d : List (String × PyVal)) (k : String) : Option Int :=
  match pyGet d k with
  | .int n => some n
  | .bool b => some (if b then 1 else 0)
  | .str s => parsePyIntStr s
  | _ => Option.none

/-- Model of `_normalize_string`: `None` stays absent, strings are stripped
with blank collapsing to absent, any other value becomes `str(value)`. -/
def normalizeString : PyVal → Option String
  | .none => Option.none
  | .str s =>
      let stripped := pyStrip s
      if stripped.data.isEmpty then Option.none else some stripped
  | v => some (pyStrOf v)

/-- Conversion applied to the `basic` / sale candidates inside
`_extract_prices_from_sizes` (`int(float(s))` for non-blank strings,
`int(value)` for numbers, `ValueError` absorbed). -/
def coercePriceField : PyVal → Option Int
  | .str s => if !isBlank s then parseFloatTruncInt s else Option.none
  | .int n => some n
  | .bool b => some (if b then 1 else 0)
  | _ => Option.none

/-- Python `a or b` on payload values, as in the sale-price candidate choice. -/
def pyOr (a b : PyVal) : PyVal :=
  if pyTruthyVal a then a else b

/-- Derived price of a `price` mapping (`price_info.get("basic")`). -/
def basicFromPrice (pr : List (String × PyVal)) : Option Int :=
  coercePriceField (pyGet pr "basic")

/-- Derived sale price of a `price` mapping
(`price_info.get("product") or price_info.get("total")`). -/
def saleFromPrice (pr : List (String × PyVal)) : Option Int :=
  coercePriceField (pyOr (pyGet pr "product") (pyGet pr "total"))

/-- Entry loop of `_extract_prices_from_sizes`: the first mapping entry whose
`price` mapping yields a basic or sale value decides both. -/
def sizesLoop : List PyVal → Option Int × Option Int
  | [] => (Option.none, Option.none)
  | x :: rest =>
      match x with
      | .dict kvs =>
          (match pyGet kvs "price" with
           | .dict pr =>
               let b := basicFromPrice pr
               let s := saleFromPrice pr
               if b.isSome || s.isSome then (b, s) else sizesLoop rest
           | _ => sizesLoop rest)
      | _ => sizesLoop rest

/-- Model of `_extract_prices_from_sizes`. -/
def extractPricesFromSizes : PyVal → Option Int × Option Int
  | .list entries => sizesLoop entries
  | _ => (Option.none, Option.none)

/-- Python `value or derived` on optional integers (`None` and `0` falsy), as
in `price = price or derived_price`. -/
def pyOrIntOpt (a b : Option Int) : Option Int :=
  match a with
  | some n => if n != 0 then some n else b
  | Option.none => b

/-- Price/sale-price merge of `fetch_product_raw` (lines 97–111) for a present
primary product object. -/
def mergedPrices (p : List (String × PyVal)) : Option Int × Option Int :=
  let price := extractInt p "priceU"
  let salePrice := extractInt p "salePriceU"
  if price.isNone || salePrice.isNone then
    let derived := extractPricesFromSizes (pyGet p "sizes")
    (pyOrIntOpt price derived.1, pyOrIntOpt salePrice derived.2)
  else (price, salePrice)

/-- Key loop inside `_extract_named_list` for a mapping item: the first key
whose normalized value is truthy. -/
def namedHit (kvs : List (String × PyVal)) : List String → Option String
  | [] => Option.none
  | k :: krest =>
      let candidate := normalizeString (pyGet kvs k)
      if pyTruthyStr candidate then candidate else namedHit kvs krest

/-- Item loop of `_extract_named_list`. -/
def namedLoop (keys : List String) : List PyVal → List String
  | [] => []
  | .dict kvs :: rest =>
      (match namedHit kvs keys with
       | some s => s :: namedLoop keys rest
       | Option.none => namedLoop keys rest)
  | v :: rest =>
      let candidate := normalizeString v
      match candidate with
      | some s => if !s.data.isEmpty then s :: namedLoop keys rest else namedLoop keys rest
      | Option.none => namedLoop keys rest

/-- Model of `_extract_named_list`. -/
def extractNamedList (items : PyVal) (keys : List String) : List String :=
  match items with
  | .list xs => namedLoop keys xs
  | _ => []

/-- Explicit image list filter of `_build_image_urls`. -/
def explicitImages : List PyVal → List String
  | [] => []
  | e :: rest =>
      match normalizeString e with
      | some s => if !s.data.isEmpty then s :: explicitImages rest else explicitImages rest
      | Option.none => explicitImages rest

/-- Model of `_build_image_urls`. -/
def buildImageUrls (nm : Option Int) (product : Option (List (String × PyVal)))
    (info : List (String × PyVal)) : List String :=
  match nm with
  | Option.none => []
  | some nmv =>
      let explicit : List String :=
        if productTruthy product then
          match pyGet (product.getD []) "images" with
          | .list entries => explicitImages entries
          | _ => []
        else []
      if !explicit.isEmpty then explicit
      else
        let count : Int :=
          if productTruthy product then
            match extractInt (product.getD []) "pics" with
            | some pics => if pics != 0 then max 0 pics else 0
            | Option.none => 0
          else 0
        let count : Int :=
          match pyGet info "media" with
          | .dict m =>
              (match extractInt m "photo_count" with
               | some pc => if pc != 0 then max count pc else count
               | Option.none => count)
          | _ => count
        if count ≤ 0 then []
        else
          let vol := if nmv ≥ 0 then nmv.fdiv 100000 else 0
          let part := if nmv ≥ 0 then nmv.fdiv 1000 else 0
          (List.range count.toNat).map (fun i =>
            "https://images.wbstatic.net/big/new/" ++ pyStrInt vol ++ "/" ++
              pyStrInt part ++ "/" ++ pyStrInt nmv ++ "-" ++ pyStrInt ((i : Int) + 1) ++ ".jpg")

/-- Model of the `ProductRaw` dataclass (the float field `rating` is outside
the modelled fragment and omitted; no claim concerns it). -/
structure ProductRaw where
  id : Option Int
  name : Option String
  brand : Option String
  supplier : Option String
  description : Option String
  sources : List (String × PyVal)
  price : Option Int
  sale_price : Option Int
  feedbacks : Option Int
  category_id : Option Int
  category_parent_id : Option Int
  root : Option Int
  kind_id : Option Int
  colors : List String
  sizes : List String
  image_urls : List String
  text_index : String

/-- Network oracle: the JSON payload each endpoint delivers for an input
(`get_card_api`, `get_info_card_json`, `get_content_v2`). -/
structure Network where
  card : PyVal → PyVal
  info : PyVal → PyVal
  content : PyVal → PyVal

/-- Model of `fetch_product_raw`.  The second component counts the
`get_content_v2` invocations performed during the run (0 or 1). -/
def fetchProductRaw (net : Network) (nm_id : PyVal) : ProductRaw × Nat :=
  let nm_int := extract_nm_ok nm_id
  let card_data := ensureMapping (net.card nm_id)
  let product := extractPrimaryProduct card_data
  let pid0 : Option Int :=
    if productTruthy product then extractInt (product.getD []) "id" else Option.none
  let product_id : Option Int :=
    match pid0 with
    | some i => some i
    | Option.none => nm_int
  let name :=
    if productTruthy product then normalizeString (pyGet (product.getD []) "name")
    else Option.none
  let brand :=
    if productTruthy product then normalizeString (pyGet (product.getD []) "brand")
    else Option.none
  let supplier :=
    if productTruthy product then normalizeString (pyGet (product.getD []) "supplier")
    else Option.none
  let info_card := ensureMapping (net.info nm_id)
  let basketDescription := extractDescriptionFromBasket info_card
  let contentCalls : Nat := if pyTruthyStr basketDescription then 0 else 1
  let content_data : List (String × PyVal) :=
    if pyTruthyStr basketDescription then [] else ensureMapping (net.content nm_id)
  let description := resolveDescription info_card content_data
  let prices :=
    if productTruthy product then mergedPrices (product.getD [])
    else (Option.none, Option.none)
  let feedbacks :=
    if productTruthy product then extractInt (product.getD []) "feedbacks" else Option.none
  let category_id :=
    if productTruthy product then extractInt (product.getD []) "subjectId" else Option.none
  let category_parent_id :=
    if productTruthy product then extractInt (product.getD []) "subjectParentId" else Option.none
  let root_id :=
    if productTruthy product then extractInt (product.getD []) "root" else Option.none
  let kind_id :=
    if productTruthy product then extractInt (product.getD []) "kindId" else Option.none
  let colors :=
    if productTruthy product then extractNamedList (pyGet (product.getD []) "colors") ["name"]
    else []
  let sizes :=
    if productTruthy product then
      extractNamedList (pyGet (product.getD []) "sizes") ["name", "origName"]
    else []
  let image_urls := buildImageUrls nm_int product info_card
  let text_parts := [name, brand, supplier, description].filterMap (fun o =>
    if pyTruthyStr o then o else Option.none)
  let text_index := String.intercalate "\n" text_parts
  let sources := [("card_api", PyVal.dict card_data),
                  ("info_card_json", PyVal.dict info_card),
                  ("content_v2", PyVal.dict content_data)]
  (⟨product_id, name, brand, supplier, description, sources, prices.1, prices.2,
    feedbacks, category_id, category_parent_id, root_id, kind_id,
    colors, sizes, image_urls, text_index⟩, contentCalls)

/-- Model of `ProductRaw.to_dict` (minus the omitted `rating` field). -/
def ProductRaw.toDict (r : ProductRaw) : PyVal :=
  let optInt : Option Int → PyVal := fun o =>
    match o with
    | some n => .int n
    | Option.none => .none
  let optStr : Option String → PyVal := fun o =>
    match o with
    | some s => .str s
    | Option.none => .none
  .dict [("id", optInt r.id), ("name", optStr r.name), ("brand", optStr r.brand),
         ("supplier", optStr r.supplier), ("description", optStr r.description),
         ("sources", .dict r.sources), ("price", optInt r.price),
         ("sale_price", optInt r.sale_price), ("feedbacks", optInt r.feedbacks),
         ("category_id", optInt r.category_id),
         ("category_parent_id", optInt r.category_parent_id),
         ("root", optInt r.root), ("kind_id", optInt r.kind_id),
         ("colors", .list (r.colors.map PyVal.str)),
         ("sizes", .list (r.sizes.map PyVal.str)),
         ("image_urls", .list (r.image_urls.map PyVal.str)),
         ("text_index", .str r.text_index)]

/-- Model of `collect_product_records`.  `asyncio.gather` is documented to
return the results in the order of the awaitables passed to it, and the
semaphore only bounds how many workers run at once, so the collection step is
an in-order map of the per-identifier pipeline over the inputs. -/
def collect_product_records (net : Network) (nm_ids : List PyVal) : List PyVal :=
  nm_ids.map (fun nm => ((fetchProductRaw net nm).1).toDict)

/-!
Specification-side definitions and supporting lemmas for the Shard Locator
claims (C5, C6, C7).
-/

/-- Valid basket host range test from the claim (`[1, 32]`). -/
def inRange32 (c : Int) : Bool := decide (1 ≤ c ∧ c ≤ 32)

/-- Duplicate removal preserving first-occurrence order, relative to a set of
already-seen values. -/
def dedupKeepFirst (seen : List Int) : List Int → List Int
  | [] => []
  | c :: rest =>
      if c ∈ seen then dedupKeepFirst seen rest
      else c :: dedupKeepFirst (c :: seen) rest

/-- Ceiling division on integers, as literally written in the claim. -/
def intCeilDiv (a b : Int) : Int := -((-a).fdiv b)

/-- Candidate list exactly as the claim words it: `base = max(1,
ceil((volume + 159) / 160))`, then `[primary, base, base−1, base+1, base−2,
base+2]` filtered to `[1, 32]` and deduplicated keeping first occurrences. -/
def claimCandidateList (v : Int) : List Int :=
  let primary := primaryHostOf v
  let base := max 1 (intCeilDiv (v + 159) 160)
  dedupKeepFirst [] (List.filter inRange32 [primary, base, base - 1, base + 1, base - 2, base + 2])

/-- Candidate list as the amended claim words it: the same construction with
`base = max(1, ⌈volume / 160⌉) = max(1, (volume + 159) // 160)`. -/
def specCandidateList (v : Int) : List Int :=
  let primary := primaryHostOf v
  let base := max 1 ((v + 159).fdiv 160)
  dedupKeepFirst [] (List.filter inRange32 [primary, base, base - 1, base + 1, base - 2, base + 2])

lemma dedupKeepFirst_congr (s₁ s₂ : List Int) (h : ∀ x, x ∈ s₁ ↔ x ∈ s₂) :
    ∀ l, dedupKeepFirst s₁ l = dedupKeepFirst s₂ l := by
  intro l
  induction l generalizing s₁ s₂ with
  | nil => rfl
  | cons c rest ih =>
      by_cases hc : c ∈ s₁
      · rw [dedupKeepFirst, if_pos hc, dedupKeepFirst, if_pos ((h c).1 hc)]
        exact ih s₁ s₂ h
      · rw [dedupKeepFirst, if_neg hc, dedupKeepFirst, if_neg (fun hx => hc ((h c).2 hx))]
        exact congrArg (c :: ·) (ih (c :: s₁) (c :: s₂) (by
          intro x
          simp only [List.mem_cons]
          exact or_congr Iff.rfl (h x)))

lemma guessFold_eq (cs : List Int) (acc : List Int) :
    guessFold cs acc = acc ++ dedupKeepFirst acc (cs.filter inRange32) := by
  induction cs generalizing acc with
  | nil => simp [guessFold, dedupKeepFirst]
  | cons c rest ih =>
      by_cases hr : 1 ≤ c ∧ c ≤ 32
      · have hkeep : inRange32 c = true := by simp [inRange32, hr]
        by_cases hmem : c ∈ acc
        · rw [guessFold, if_pos (Or.inr (Or.inr hmem))]
          rw [List.filter_cons_of_pos hkeep, dedupKeepFirst, if_pos hmem]
          exact ih acc
        · rw [guessFold, if_neg (by
            push_neg
            refine ⟨by omega, by simpa [MAX_BASKET_HOST] using hr.2, hmem⟩)]
          rw [List.filter_cons_of_pos hkeep, dedupKeepFirst, if_neg hmem]
          rw [ih (acc ++ [c])]
          rw [dedupKeepFirst_congr (acc ++ [c]) (c :: acc) (by intro x; simp [or_comm])]
          simp
      · have hdrop : inRange32 c = false := by
          simp only [inRange32, decide_eq_false_iff_not]
          exact hr
        rw [guessFold, if_pos (by
          rcases not_and_or.mp hr with h1 | h2
          · exact Or.inl (by omega)
          · exact Or.inr (Or.inl (by simp only [MAX_BASKET_HOST]; omega)))]
        rw [List.filter_cons_of_neg (by simp [hdrop])]
        exact ih acc

lemma dedupKeepFirst_length_le (seen : List Int) (l : List Int) :
    (dedupKeepFirst seen l).length ≤ l.length := by
  induction l generalizing seen with
  | nil => simp [dedupKeepFirst]
  | cons c rest ih =>
      rw [dedupKeepFirst]
      split
      · exact Nat.le_succ_of_le (ih seen)
      · simpa using Nat.succ_le_succ (ih (c :: seen))

lemma bisectLeft_nonneg_bound (v : Int) (l : List Int) : bisectLeft v l ≤ l.length := by
  induction l with
  | nil => simp [bisectLeft]
  | cons t rest ih =>
      rw [bisectLeft]
      split
      · simpa using Nat.succ_le_succ ih
      · simp

lemma primaryHostOf_mem_range (v : Int) : 1 ≤ primaryHostOf v ∧ primaryHostOf v ≤ 32 := by
  unfold primaryHostOf MAX_BASKET_HOST
  constructor
  · have h0 : (0 : Int) ≤ (bisectLeft v basketVolThresholds : Int) := Int.ofNat_nonneg _
    omega
  · exact min_le_right _ _

lemma bisectLeft_all_lt (v : Int) (l : List Int) (h : ∀ x ∈ l, x < v) :
    bisectLeft v l = l.length := by
  induction l with
  | nil => rfl
  | cons t rest ih =>
      rw [bisectLeft, if_pos (h t (List.mem_cons_self t rest))]
      simp [ih (fun x hx => h x (List.mem_cons_of_mem t hx))]

lemma bisectLeft_mono (l : List Int) {v₁ v₂ : Int} (h : v₁ ≤ v₂) :
    bisectLeft v₁ l ≤ bisectLeft v₂ l := by
  induction l with
  | nil => exact le_refl _
  | cons t rest ih =>
      rw [bisectLeft, bisectLeft]
      by_cases ht : t < v₁
      · rw [if_pos ht, if_pos (lt_of_lt_of_le ht h)]
        exact Nat.succ_le_succ ih
      · rw [if_neg ht]
        exact Nat.zero_le _

lemma bisectLeft_insertion_point (v : Int) (l : List Int) (hs : l.Pairwise (· ≤ ·)) :
    (∀ x ∈ l.take (bisectLeft v l), x < v) ∧ (∀ x ∈ l.drop (bisectLeft v l), v ≤ x) := by
  induction l with
  | nil => simp [bisectLeft]
  | cons t rest ih =>
      have hpair := List.pairwise_cons.mp hs
      rw [bisectLeft]
      by_cases ht : t < v
      · rw [if_pos ht]
        obtain ⟨ih1, ih2⟩ := ih hpair.2
        refine ⟨?_, ?_⟩
        · intro x hx
          rw [List.take_succ_cons] at hx
          rcases List.mem_cons.mp hx with rfl | hx
          · exact ht
          · exact ih1 x hx
        · intro x hx
          rw [List.drop_succ_cons] at hx
          exact ih2 x hx
      · rw [if_neg ht]
        refine ⟨by simp, ?_⟩
        intro x hx
        rw [List.drop_zero] at hx
        rcases List.mem_cons.mp hx with rfl | hx
        · omega
        · have := hpair.1 x hx
          omega

lemma guessBasketHosts_eq_cons (v : Int) (hv : 0 ≤ v) :
    guessBasketHosts v =
      primaryHostOf v ::
        dedupKeepFirst [primaryHostOf v]
          (List.filter inRange32
            [max 1 ((v + 159).fdiv 160), max 1 ((v + 159).fdiv 160) - 1,
             max 1 ((v + 159).fdiv 160) + 1, max 1 ((v + 159).fdiv 160) - 2,
             max 1 ((v + 159).fdiv 160) + 2]) := by
  have hpr := primaryHostOf_mem_range v
  have hin : inRange32 (primaryHostOf v) = true := by
    simpa [inRange32] using hpr
  rw [guessBasketHosts, if_neg (by omega)]
  show guessFold _ [primaryHostOf v] = _
  rw [guessFold_eq]
  simp [dedupKeepFirst]

/-- C5 (amended): for every volume ≥ 0 the candidate list equals
`[primary, base, base−1, base+1, base−2, base+2]` with
`base = max(1, ⌈volume/160⌉) = max(1, (volume+159) // 160)`, filtered to
`[1, 32]`, deduplicated preserving first occurrences, and the result has
between 1 and 6 entries. -/
theorem shardCandidateList_spec (v : Int) (hv : 0 ≤ v) :
    guessBasketHosts v = specCandidateList v ∧
      1 ≤ (guessBasketHosts v).length ∧ (guessBasketHosts v).length ≤ 6 := by
  have hpr := primaryHostOf_mem_range v
  have hin : inRange32 (primaryHostOf v) = true := by
    simpa [inRange32] using hpr
  have hform := guessBasketHosts_eq_cons v hv
  refine ⟨?_, ?_, ?_⟩
  · rw [hform]
    show _ = dedupKeepFirst [] (List.filter inRange32 (primaryHostOf v :: _))
    rw [List.filter_cons_of_pos hin, dedupKeepFirst,
      if_neg (List.not_mem_nil (primaryHostOf v))]
  · rw [hform]
    simp
  · rw [hform]
    have h1 := dedupKeepFirst_length_le [primaryHostOf v]
      (List.filter inRange32
        [max 1 ((v + 159).fdiv 160), max 1 ((v + 159).fdiv 160) - 1,
         max 1 ((v + 159).fdiv 160) + 1, max 1 ((v + 159).fdiv 160) - 2,
         max 1 ((v + 159).fdiv 160) + 2])
    have h2 := List.length_filter_le inRange32
      [max 1 ((v + 159).fdiv 160), max 1 ((v + 159).fdiv 160) - 1,
       max 1 ((v + 159).fdiv 160) + 1, max 1 ((v + 159).fdiv 160) - 2,
       max 1 ((v + 159).fdiv 160) + 2]
    simp only [List.length_cons]
    simp only [List.length_cons, List.length_nil] at h2
    omega

/-- C5 counterexample: at volume 2 the code's list is `[1, 2, 3]` (floor-based
base 1), while the claim's literal `ceil((volume+159)/160)` formula gives base
2 and the list `[1, 2, 3, 4]`. -/
theorem shardCandidateList_claim_counterexample :
    guessBasketHosts 2 = [1, 2, 3] ∧ claimCandidateList 2 = [1, 2, 3, 4] ∧
      guessBasketHosts 2 ≠ claimCandidateList 2 := by decide

/-- C5 witness: the amended statement at volume 2. -/
theorem shardCandidateList_spec_witness :
    guessBasketHosts 2 = specCandidateList 2 ∧
      1 ≤ (guessBasketHosts 2).length ∧ (guessBasketHosts 2).length ≤ 6 :=
  shardCandidateList_spec 2 (by norm_num)

/-- C6: Shard Locator boundaries — negative volumes yield exactly `[9, 1, 2]`;
a non-negative volume below the smallest threshold 143 has primary candidate
1; a volume above the largest threshold 6437 has primary candidate capped at
32; in general the primary candidate is the leftmost insertion point of the
volume in the 31-entry threshold table plus 1, capped at 32 (the insertion
point splits the table into a prefix of entries below the volume and a suffix
of entries not below it, and it heads the produced candidate list). -/
theorem shardLocatorBoundaries :
    (∀ v : Int, v < 0 → guessBasketHosts v = [9, 1, 2]) ∧
    (∀ v : Int, 0 ≤ v → v < 143 → primaryHostOf v = 1) ∧
    (∀ v : Int, 6437 < v → primaryHostOf v = 32) ∧
    (∀ v : Int, 0 ≤ v →
      primaryHostOf v = min ((bisectLeft v basketVolThresholds : Int) + 1) 32 ∧
      basketVolThresholds.length = 31 ∧
      (∀ x ∈ basketVolThresholds.take (bisectLeft v basketVolThresholds), x < v) ∧
      (∀ x ∈ basketVolThresholds.drop (bisectLeft v basketVolThresholds), v ≤ x) ∧
      (guessBasketHosts v).head? = some (primaryHostOf v)) := by
  refine ⟨?_, ?_, ?_, ?_⟩
  · intro v hv
    rw [guessBasketHosts, if_pos hv]
  · intro v _ hv
    have h0 : bisectLeft v basketVolThresholds = 0 := by
      rw [basketVolThresholds, bisectLeft, if_neg (by omega)]
    rw [primaryHostOf, h0, MAX_BASKET_HOST]
    norm_num
  · intro v hv
    have hlt : ∀ x ∈ basketVolThresholds, x < v := by
      have hle : ∀ x ∈ basketVolThresholds, x ≤ 6437 := by decide
      intro x hx
      have := hle x hx
      omega
    have h31 : bisectLeft v basketVolThresholds = 31 := by
      rw [bisectLeft_all_lt v basketVolThresholds hlt]
      rfl
    rw [primaryHostOf, h31, MAX_BASKET_HOST]
    norm_num
  · intro v hv
    have hsorted : basketVolThresholds.Pairwise (· ≤ ·) := by decide
    obtain ⟨h1, h2⟩ := bisectLeft_insertion_point v basketVolThresholds hsorted
    refine ⟨rfl, rfl, h1, h2, ?_⟩
    rw [guessBasketHosts_eq_cons v hv]
    rfl

/-- C6 witness: the boundary statements at volumes −1, 0, 7000 and 2000. -/
theorem shardLocatorBoundaries_witness :
    guessBasketHosts (-1) = [9, 1, 2] ∧ primaryHostOf 0 = 1 ∧
      primaryHostOf 7000 = 32 ∧
      primaryHostOf 2000 = min ((bisectLeft 2000 basketVolThresholds : Int) + 1) 32 :=
  ⟨shardLocatorBoundaries.1 (-1) (by norm_num),
   shardLocatorBoundaries.2.1 0 (by norm_num) (by norm_num),
   shardLocatorBoundaries.2.2.1 7000 (by norm_num),
   (shardLocatorBoundaries.2.2.2 2000 (by norm_num)).1⟩

/-- C7: the primary candidate host is monotone in the volume on non-negative
volumes within the threshold-table range. -/
theorem shardPrimaryMonotone (v₁ v₂ : Int) (_h0 : 0 ≤ v₁) (h12 : v₁ < v₂)
    (_hR : v₂ ≤ 6437) : primaryHostOf v₁ ≤ primaryHostOf v₂ := by
  have hb := bisectLeft_mono basketVolThresholds (le_of_lt h12)
  rw [primaryHostOf, primaryHostOf]
  have hcast : ((bisectLeft v₁ basketVolThresholds : Int) + 1) ≤
      ((bisectLeft v₂ basketVolThresholds : Int) + 1) := by
    have := Int.ofNat_le.mpr hb
    omega
  exact min_le_min hcast (le_refl MAX_BASKET_HOST)

/-- C7 witness: monotonicity at volumes 100 < 2000. -/
theorem shardPrimaryMonotone_witness : primaryHostOf 100 ≤ primaryHostOf 2000 :=
  shardPrimaryMonotone 100 2000 (by norm_num) (by norm_num) (by norm_num)

lemma requestAttempts_le (outcomes : Nat → Option PyVal) :
    ∀ (f a : Nat), (requestAttempts outcomes a f).2.1 ≤ f := by
  intro f
  induction f with
  | zero => intro a; simp [requestAttempts]
  | succ f ih =>
      intro a
      rw [requestAttempts]
      rcases h : outcomes a with _ | d
      · simp only []
        by_cases hf : f = 0
        · simp [hf]
        · rw [if_neg hf]
          have := ih (a + 1)
          simpa using Nat.succ_le_succ this
      · simp

lemma requestAttempts_pos (outcomes : Nat → Option PyVal) :
    ∀ (f a : Nat), 1 ≤ f → 1 ≤ (requestAttempts outcomes a f).2.1 := by
  intro f a hf
  match f, hf with
  | f + 1, _ =>
      rw [requestAttempts]
      rcases h : outcomes a with _ | d
      · simp only []
        by_cases hz : f = 0
        · simp [hz]
        · rw [if_neg hz]
          simp
      · simp

lemma requestAttempts_sleeps (outcomes : Nat → Option PyVal) :
    ∀ (f a t : Nat), t ∈ (requestAttempts outcomes a f).2.2 →
      outcomes t = Option.none ∧ a ≤ t ∧ t + 2 ≤ a + (requestAttempts outcomes a f).2.1 := by
  intro f
  induction f with
  | zero => intro a t ht; simp [requestAttempts] at ht
  | succ f ih =>
      intro a t ht
      rw [requestAttempts] at ht ⊢
      rcases h : outcomes a with _ | d
      · rw [h] at ht
        simp only [] at ht ⊢
        by_cases hz : f = 0
        · rw [if_pos hz] at ht
          simp at ht
        · rw [if_neg hz] at ht ⊢
          dsimp only at ht ⊢
          simp only [List.mem_cons] at ht
          rcases ht with rfl | ht
          · refine ⟨h, le_refl t, ?_⟩
            have := requestAttempts_pos outcomes f (t + 1) (by omega)
            omega
          · obtain ⟨h1, h2, h3⟩ := ih (a + 1) t ht
            exact ⟨h1, by omega, by omega⟩
      · rw [h] at ht
        simp at ht

/-- C4: the retrying fetcher performs between 1 and 4 single-GET attempts;
per-attempt failures (transport error, HTTP error status, JSON decode
failure) are modelled as an absent outcome and are never propagated — the
fetch always returns a value; if all 4 attempts fail it returns the empty
object after sleeping exactly after attempts 1, 2 and 3; every backoff sleep
sits between a failed attempt and a later one and never follows the final
attempt; the first successful attempt's payload is returned. -/
theorem retryingFetcherPolicy (outcomes : Nat → Option PyVal) :
    1 ≤ (requestWithRetries outcomes).2.1 ∧
    (requestWithRetries outcomes).2.1 ≤ 4 ∧
    ((∀ i, 1 ≤ i → i ≤ 4 → outcomes i = Option.none) →
       requestWithRetries outcomes = (PyVal.dict [], 4, [1, 2, 3])) ∧
    (∀ t ∈ (requestWithRetries outcomes).2.2,
       outcomes t = Option.none ∧ 1 ≤ t ∧ t < (requestWithRetries outcomes).2.1) ∧
    (requestWithRetries outcomes).2.1 ∉ (requestWithRetries outcomes).2.2 ∧
    (∀ (k : Nat) (d : PyVal), 1 ≤ k → k ≤ 4 → outcomes k = some d →
       (∀ u, 1 ≤ u → u < k → outcomes u = Option.none) →
       (requestWithRetries outcomes).1 = d ∧ (requestWithRetries outcomes).2.1 = k) := by
  have hsleep : ∀ t ∈ (requestWithRetries outcomes).2.2,
      outcomes t = Option.none ∧ 1 ≤ t ∧ t < (requestWithRetries outcomes).2.1 := by
    intro t ht
    obtain ⟨h1, h2, h3⟩ := requestAttempts_sleeps outcomes MAX_RETRIES 1 t ht
    have h3' : t + 2 ≤ 1 + (requestWithRetries outcomes).2.1 := h3
    exact ⟨h1, h2, by omega⟩
  refine ⟨requestAttempts_pos outcomes MAX_RETRIES 1 (by norm_num [MAX_RETRIES]),
    requestAttempts_le outcomes MAX_RETRIES 1, ?_, hsleep, ?_, ?_⟩
  · intro h
    have h1 := h 1 (by norm_num) (by norm_num)
    have h2 := h 2 (by norm_num) (by norm_num)
    have h3 := h 3 (by norm_num) (by norm_num)
    have h4 := h 4 (by norm_num) (by norm_num)
    simp [requestWithRetries, MAX_RETRIES, requestAttempts, h1, h2, h3, h4]
  · intro hmem
    obtain ⟨_, _, h3⟩ := hsleep _ hmem
    omega
  · intro k d hk1 hk4 hs hprev
    interval_cases k
    · simp [requestWithRetries, MAX_RETRIES, requestAttempts, hs]
    · have h1 := hprev 1 (by norm_num) (by norm_num)
      simp [requestWithRetries, MAX_RETRIES, requestAttempts, h1, hs]
    · have h1 := hprev 1 (by norm_num) (by norm_num)
      have h2 := hprev 2 (by norm_num) (by norm_num)
      simp [requestWithRetries, MAX_RETRIES, requestAttempts, h1, h2, hs]
    · have h1 := hprev 1 (by norm_num) (by norm_num)
      have h2 := hprev 2 (by norm_num) (by norm_num)
      have h3 := hprev 3 (by norm_num) (by norm_num)
      simp [requestWithRetries, MAX_RETRIES, requestAttempts, h1, h2, h3, hs]

/-- C4 witness: the policy evaluated for an always-failing outcome stream. -/
theorem retryingFetcherPolicy_witness :
    requestWithRetries (fun _ => Option.none) = (PyVal.dict [], 4, [1, 2, 3]) :=
  (retryingFetcherPolicy (fun _ => Option.none)).2.2.1 (fun _ _ _ => rfl)

lemma mem_of_mem_dropWhile {α : Type} {p : α → Bool} {l : List α} {c : α}
    (h : c ∈ l.dropWhile p) : c ∈ l := by
  induction l with
  | nil => simp at h
  | cons a t ih =>
      rw [List.dropWhile_cons] at h
      by_cases hp : p a
      · rw [if_pos hp] at h
        exact List.mem_cons_of_mem a (ih h)
      · rw [if_neg hp] at h
        exact h

lemma mem_of_mem_takeWhile {α : Type} {p : α → Bool} {l : List α} {c : α}
    (h : c ∈ l.takeWhile p) : c ∈ l := by
  induction l with
  | nil => simp at h
  | cons a t ih =>
      rw [List.takeWhile_cons] at h
      by_cases hp : p a
      · rw [if_pos hp] at h
        rcases List.mem_cons.mp h with rfl | h
        · exact List.mem_cons_self c t
        · exact List.mem_cons_of_mem a (ih h)
      · rw [if_neg hp] at h
        simp at h

lemma mem_of_mem_stripChars {l : List Char} {c : Char} (h : c ∈ stripChars l) : c ∈ l := by
  rw [stripChars, List.mem_reverse] at h
  have h2 := mem_of_mem_dropWhile h
  rw [List.mem_reverse] at h2
  exact mem_of_mem_dropWhile h2

lemma all_congr_mem {α : Type} (l : List α) (p q : α → Bool)
    (h : ∀ c ∈ l, p c = q c) : l.all p = l.all q := by
  induction l with
  | nil => rfl
  | cons a t ih =>
      rw [List.all_cons, List.all_cons, h a (List.mem_cons_self a t),
        ih (fun c hc => h c (List.mem_cons_of_mem a hc))]

lemma dropWhile_congr_mem {α : Type} (l : List α) (p q : α → Bool)
    (h : ∀ c ∈ l, p c = q c) : l.dropWhile p = l.dropWhile q := by
  induction l with
  | nil => rfl
  | cons a t ih =>
      rw [List.dropWhile_cons, List.dropWhile_cons, h a (List.mem_cons_self a t)]
      by_cases hq : q a
      · rw [if_pos hq, if_pos hq]
        exact ih (fun c hc => h c (List.mem_cons_of_mem a hc))
      · rw [if_neg hq, if_neg hq]

lemma takeWhile_congr_mem {α : Type} (l : List α) (p q : α → Bool)
    (h : ∀ c ∈ l, p c = q c) : l.takeWhile p = l.takeWhile q := by
  induction l with
  | nil => rfl
  | cons a t ih =>
      rw [List.takeWhile_cons, List.takeWhile_cons, h a (List.mem_cons_self a t)]
      by_cases hq : q a
      · rw [if_pos hq, if_pos hq, ih (fun c hc => h c (List.mem_cons_of_mem a hc))]
      · rw [if_neg hq, if_neg hq]

lemma classify_ascii_eq (T : UnicodeTable) (c : Char) (h : c.toNat < 128) :
    T.classify c = asciiNumericTable.classify c := by
  by_cases hd : 48 ≤ c.toNat ∧ c.toNat ≤ 57
  · rw [T.ascii_digit c hd.1 hd.2]
    show _ = (if 48 ≤ c.toNat ∧ c.toNat ≤ 57 then CharNumeric.decimal (c.toNat - 48)
              else CharNumeric.other)
    rw [if_pos hd]
  · rw [T.ascii_nondigit c h hd]
    show _ = (if 48 ≤ c.toNat ∧ c.toNat ≤ 57 then CharNumeric.decimal (c.toNat - 48)
              else CharNumeric.other)
    rw [if_neg hd]

lemma pyIsDigit_ascii_eq (T : UnicodeTable) (c : Char) (h : c.toNat < 128) :
    pyIsDigit T c = pyIsDigit asciiNumericTable c := by
  rw [pyIsDigit, pyIsDigit, classify_ascii_eq T c h]

lemma isNd_ascii_eq (T : UnicodeTable) (c : Char) (h : c.toNat < 128) :
    isNd T c = isNd asciiNumericTable c := by
  rw [isNd, isNd, classify_ascii_eq T c h]

lemma decimalVal_ascii_eq (T : UnicodeTable) (c : Char) (h : c.toNat < 128) :
    decimalVal T c = decimalVal asciiNumericTable c := by
  rw [decimalVal, decimalVal, classify_ascii_eq T c h]

lemma intOfDigitCharsAux_congr (T₁ T₂ : UnicodeTable) (l : List Char)
    (h : ∀ c ∈ l, decimalVal T₁ c = decimalVal T₂ c) :
    ∀ acc, intOfDigitCharsAux T₁ acc l = intOfDigitCharsAux T₂ acc l := by
  induction l with
  | nil => intro acc; rfl
  | cons c t ih =>
      intro acc
      show intOfDigitCharsAux T₁
          (match acc, decimalVal T₁ c with
           | some a, some d => some (a * 10 + d)
           | _, _ => Option.none) t =
        intOfDigitCharsAux T₂
          (match acc, decimalVal T₂ c with
           | some a, some d => some (a * 10 + d)
           | _, _ => Option.none) t
      rw [h c (List.mem_cons_self c t)]
      exact ih (fun x hx => h x (List.mem_cons_of_mem c hx)) _

lemma intOfDigitChars_congr (T₁ T₂ : UnicodeTable) (l : List Char)
    (h : ∀ c ∈ l, decimalVal T₁ c = decimalVal T₂ c) :
    intOfDigitChars T₁ l = intOfDigitChars T₂ l :=
  intOfDigitCharsAux_congr T₁ T₂ l h (some 0)

lemma firstNdRun_congr (T₁ T₂ : UnicodeTable) (l : List Char)
    (h : ∀ c ∈ l, isNd T₁ c = isNd T₂ c) : firstNdRun T₁ l = firstNdRun T₂ l := by
  rw [firstNdRun, firstNdRun,
    dropWhile_congr_mem l (fun c => !isNd T₁ c) (fun c => !isNd T₂ c)
      (fun c hc => by
        show (!isNd T₁ c) = !isNd T₂ c
        rw [h c hc])]
  exact takeWhile_congr_mem _ _ _ (fun c hc => h c (mem_of_mem_dropWhile hc))

lemma extract_nm_ascii_str (T : UnicodeTable) (s : String)
    (h : ∀ c ∈ s.data, c.toNat < 128) :
    extract_nm T (.str s) = extract_nm asciiNumericTable (.str s) := by
  have hstrip : ∀ c ∈ stripChars s.data, c.toNat < 128 :=
    fun c hc => h c (mem_of_mem_stripChars hc)
  rw [extract_nm, extract_nm]
  simp only []
  rw [all_congr_mem (stripChars s.data) (pyIsDigit T) (pyIsDigit asciiNumericTable)
    (fun c hc => pyIsDigit_ascii_eq T c (hstrip c hc))]
  by_cases hcond : (!(stripChars s.data).isEmpty &&
      (stripChars s.data).all (pyIsDigit asciiNumericTable)) = true
  · rw [if_pos hcond, if_pos hcond,
      intOfDigitChars_congr T asciiNumericTable (stripChars s.data)
        (fun c hc => decimalVal_ascii_eq T c (hstrip c hc))]
  · rw [if_neg hcond, if_neg hcond]
    have hrun : firstNdRun T (stripChars s.data) =
        firstNdRun asciiNumericTable (stripChars s.data) :=
      firstNdRun_congr T asciiNumericTable _
        (fun c hc => isNd_ascii_eq T c (hstrip c hc))
    rw [hrun,
      intOfDigitChars_congr T asciiNumericTable
        (firstNdRun asciiNumericTable (stripChars s.data))
        (fun c hc => decimalVal_ascii_eq T c
          (hstrip c (mem_of_mem_takeWhile (l := (stripChars s.data).dropWhile _)
            hc |> mem_of_mem_dropWhile)))]

lemma intOfDigitCharsAux_isSome (T : UnicodeTable) (l : List Char)
    (h : ∀ c ∈ l, (decimalVal T c).isSome = true) :
    ∀ a : Nat, (intOfDigitCharsAux T (some a) l).isSome = true := by
  induction l with
  | nil => intro a; rfl
  | cons c t ih =>
      intro a
      show (intOfDigitCharsAux T
          (match some a, decimalVal T c with
           | some a, some d => some (a * 10 + d)
           | _, _ => Option.none) t).isSome = true
      rcases hd : decimalVal T c with _ | d
      · have := h c (List.mem_cons_self c t)
        rw [hd] at this
        simp at this
      · exact ih (fun x hx => h x (List.mem_cons_of_mem c hx)) (a * 10 + d)

lemma extract_nm_ascii_ok (v : PyVal) :
    extract_nm asciiNumericTable v = .ok (extract_nm_ok v) := by
  suffices hok : ∃ r, extract_nm asciiNumericTable v = .ok r by
    obtain ⟨r, hr⟩ := hok
    rw [extract_nm_ok, hr]
  cases v with
  | str s =>
      rw [extract_nm]
      simp only []
      by_cases hcond : (!(stripChars s.data).isEmpty &&
          (stripChars s.data).all (pyIsDigit asciiNumericTable)) = true
      · rw [if_pos hcond]
        have hdec : ∀ c ∈ stripChars s.data,
            (decimalVal asciiNumericTable c).isSome = true := by
          intro c hc
          have hall := (List.all_eq_true.mp ((Bool.and_eq_true _ _).mp hcond).2) c hc
          rw [pyIsDigit] at hall
          rw [decimalVal]
          rcases hcl : asciiNumericTable.classify c with d | _ | _
          · rfl
          · by_cases hr : 48 ≤ c.toNat ∧ c.toNat ≤ 57
            · rw [show asciiNumericTable.classify c =
                  (if 48 ≤ c.toNat ∧ c.toNat ≤ 57 then CharNumeric.decimal (c.toNat - 48)
                   else CharNumeric.other) from rfl, if_pos hr] at hcl
              cases hcl
            · rw [show asciiNumericTable.classify c =
                  (if 48 ≤ c.toNat ∧ c.toNat ≤ 57 then CharNumeric.decimal (c.toNat - 48)
                   else CharNumeric.other) from rfl, if_neg hr] at hcl
              cases hcl
          · rw [hcl] at hall
            simp at hall
        rcases hi : intOfDigitChars asciiNumericTable (stripChars s.data) with _ | w
        · have h2 : (intOfDigitChars asciiNumericTable (stripChars s.data)).isSome = true :=
            intOfDigitCharsAux_isSome asciiNumericTable (stripChars s.data) hdec 0
          rw [hi] at h2
          simp at h2
        · exact ⟨_, rfl⟩
      · rw [if_neg hcond]
        by_cases hrun : (firstNdRun asciiNumericTable (stripChars s.data)).isEmpty = true
        · rw [if_pos hrun]
          exact ⟨_, rfl⟩
        · rw [if_neg hrun]
          rcases intOfDigitChars asciiNumericTable
              (firstNdRun asciiNumericTable (stripChars s.data)) with _ | w
          · exact ⟨_, rfl⟩
          · exact ⟨_, rfl⟩
  | int n => exact ⟨_, rfl⟩
  | bool b => exact ⟨_, rfl⟩
  | none => exact ⟨_, rfl⟩
  | list xs => exact ⟨_, rfl⟩
  | dict kvs => exact ⟨_, rfl⟩

/-- Classification fragment of the real Unicode character database covering
the probed characters: ASCII digits are decimal; superscript two (U+00B2,
`"²"`) has Numeric_Type=Digit but no decimal value; the Arabic-Indic digits
U+0660–U+0669 are decimal with values 0–9; the remaining probed characters
are non-numeric, as in the full database. -/
def demoClassify (c : Char) : CharNumeric :=
  if Nat.ble 48 c.toNat && Nat.ble c.toNat 57 then CharNumeric.decimal (c.toNat - 48)
  else if c.toNat == 178 then CharNumeric.digitOnly
  else if c.toNat == 1632 then CharNumeric.decimal 0
  else if c.toNat == 1633 then CharNumeric.decimal 1
  else if c.toNat == 1634 then CharNumeric.decimal 2
  else if c.toNat == 1635 then CharNumeric.decimal 3
  else if c.toNat == 1636 then CharNumeric.decimal 4
  else if c.toNat == 1637 then CharNumeric.decimal 5
  else if c.toNat == 1638 then CharNumeric.decimal 6
  else if c.toNat == 1639 then CharNumeric.decimal 7
  else if c.toNat == 1640 then CharNumeric.decimal 8
  else if c.toNat == 1641 then CharNumeric.decimal 9
  else CharNumeric.other

lemma demoClassify_lt_ten (c : Char) (d : Nat)
    (h : demoClassify c = CharNumeric.decimal d) : d < 10 := by
  rw [demoClassify] at h
  by_cases h0 : (Nat.ble 48 c.toNat && Nat.ble c.toNat 57) = true
  · rw [if_pos h0] at h
    cases h
    rw [Bool.and_eq_true, Nat.ble_eq, Nat.ble_eq] at h0
    omega
  · rw [if_neg h0] at h
    by_cases h1 : (c.toNat == 178) = true
    · rw [if_pos h1] at h
      cases h
    · rw [if_neg h1] at h
      by_cases h2 : (c.toNat == 1632) = true
      · rw [if_pos h2] at h
        cases h
        decide
      · rw [if_neg h2] at h
        by_cases h3 : (c.toNat == 1633) = true
        · rw [if_pos h3] at h
          cases h
          decide
        · rw [if_neg h3] at h
          by_cases h4 : (c.toNat == 1634) = true
          · rw [if_pos h4] at h
            cases h
            decide
          · rw [if_neg h4] at h
            by_cases h5 : (c.toNat == 1635) = true
            · rw [if_pos h5] at h
              cases h
              decide
            · rw [if_neg h5] at h
              by_cases h6 : (c.toNat == 1636) = true
              · rw [if_pos h6] at h
                cases h
                decide
              · rw [if_neg h6] at h
                by_cases h7 : (c.toNat == 1637) = true
                · rw [if_pos h7] at h
                  cases h
                  decide
                · rw [if_neg h7] at h
                  by_cases h8 : (c.toNat == 1638) = true
                  · rw [if_pos h8] at h
                    cases h
                    decide
                  · rw [if_neg h8] at h
                    by_cases h9 : (c.toNat == 1639) = true
                    · rw [if_pos h9] at h
                      cases h
                      decide
                    · rw [if_neg h9] at h
                      by_cases h10 : (c.toNat == 1640) = true
                      · rw [if_pos h10] at h
                        cases h
                        decide
                      · rw [if_neg h10] at h
                        by_cases h11 : (c.toNat == 1641) = true
                        · rw [if_pos h11] at h
                          cases h
                          decide
                        · rw [if_neg h11] at h
                          cases h

/-- Table built from `demoClassify`, conforming to the `UnicodeTable`
interface. -/
def demoNumericTable : UnicodeTable where
  classify := demoClassify
  ascii_digit := by
    intro c h1 h2
    rw [demoClassify,
      if_pos (by rw [Bool.and_eq_true, Nat.ble_eq, Nat.ble_eq]; exact ⟨h1, h2⟩)]
  ascii_nondigit := by
    intro c hlt h
    rw [demoClassify,
      if_neg (by rw [Bool.and_eq_true, Nat.ble_eq, Nat.ble_eq]; exact h)]
    repeat rw [if_neg (by rw [beq_iff_eq]; omega)]
  decimal_lt_ten := demoClassify_lt_ten

/-- C8 (amended): identifier normalization over every conforming Unicode
numeric table — the six concrete cases of the claim hold; a stripped
candidate accepted by `str.isdigit` is parsed whole by `int()` and returned
only when strictly positive (so `"0"` yields absent), and when some of its
characters have no decimal value (Numeric_Type=Digit only, e.g. `"²"`) the
unguarded `int()` raises an uncaught `ValueError` — the one exception path;
any other string yields the parsed value of its first maximal run of `\d`
decimal digits (which may be 0), or absent when it has none; any other
input type yields absent. -/
theorem extract_nm_spec (T : UnicodeTable) :
    extract_nm T (.int 258368289) = .ok (some 258368289) ∧
    extract_nm T (.str "258368289") = .ok (some 258368289) ∧
    extract_nm T (.str "https://x/catalog/258368289/detail") = .ok (some 258368289) ∧
    extract_nm T (.str "no digits") = .ok Option.none ∧
    extract_nm T (.int 0) = .ok Option.none ∧
    extract_nm T (.int (-1)) = .ok Option.none ∧
    (∀ (s : String) (v : Nat),
        (!(stripChars s.data).isEmpty && (stripChars s.data).all (pyIsDigit T)) = true →
        intOfDigitChars T (stripChars s.data) = some v →
        extract_nm T (.str s) =
          .ok (if (v : Int) > 0 then some (v : Int) else Option.none)) ∧
    (∀ s : String,
        (!(stripChars s.data).isEmpty && (stripChars s.data).all (pyIsDigit T)) = true →
        intOfDigitChars T (stripChars s.data) = Option.none →
        extract_nm T (.str s) = .error PyError.valueError) ∧
    (∀ s : String,
        (!(stripChars s.data).isEmpty && (stripChars s.data).all (pyIsDigit T)) = false →
        extract_nm T (.str s) =
          .ok (if (firstNdRun T (stripChars s.data)).isEmpty then Option.none
               else match intOfDigitChars T (firstNdRun T (stripChars s.data)) with
                    | some v => some (v : Int)
                    | Option.none => Option.none)) ∧
    (∀ xs, extract_nm T (.list xs) = .ok Option.none) ∧
    (∀ kvs, extract_nm T (.dict kvs) = .ok Option.none) ∧
    extract_nm T .none = .ok Option.none := by
  refine ⟨rfl, ?_, ?_, ?_, rfl, rfl, ?_, ?_, ?_, fun xs => rfl, fun kvs => rfl, rfl⟩
  · rw [extract_nm_ascii_str T _ (by decide)]
    decide
  · rw [extract_nm_ascii_str T _ (by decide)]
    decide
  · rw [extract_nm_ascii_str T _ (by decide)]
    decide
  · intro s v hcond hint
    rw [extract_nm]
    simp only []
    rw [if_pos hcond, hint]
  · intro s hcond hint
    rw [extract_nm]
    simp only []
    rw [if_pos hcond, hint]
  · intro s hcond
    rw [extract_nm]
    simp only []
    rw [if_neg (by simp [hcond])]
    by_cases hrun : (firstNdRun T (stripChars s.data)).isEmpty = true
    · rw [if_pos hrun, if_pos hrun]
    · rw [if_neg hrun, if_neg hrun]
      rcases intOfDigitChars T (firstNdRun T (stripChars s.data)) with _ | w
      · rfl
      · rfl

/-- C8 counterexample: under the Unicode numeric table the code consults,
`extract_nm` raises an uncaught `ValueError` on `"²"` (`str.isdigit`
accepts it, the unguarded `int()` rejects it), refuting the claim's
"raises no exception for any input whatsoever"; the all-digit string `"0"`
yields absent although its first digit run `"0"` parses (to 0), refuting
the claim's first-digit-run sentence; and `"a١٢b"` parses to 12 through
its Unicode `\d` run. -/
theorem extract_nm_claim_counterexample :
    extract_nm demoNumericTable (.str "²") = .error PyError.valueError ∧
      extract_nm demoNumericTable (.str "0") = .ok Option.none ∧
      firstNdRun demoNumericTable (stripChars "0".data) = ['0'] ∧
      extract_nm demoNumericTable (.str "a١٢b") = .ok (some 12) := by decide

/-- C8 witness: the general rules instantiated at the demo table — the
regex path at `"a0b"` (run value 0 returned), the positive whole-parse at
`"007"`, and the raising path at `"²"`. -/
theorem extract_nm_spec_witness :
    extract_nm demoNumericTable (.str "a0b") = .ok (some 0) ∧
      extract_nm demoNumericTable (.str "007") = .ok (some 7) ∧
      extract_nm demoNumericTable (.str "²") = .error PyError.valueError := by
  refine ⟨?_, ?_, ?_⟩
  · have h := (extract_nm_spec demoNumericTable).2.2.2.2.2.2.2.2.1 "a0b" (by decide)
    rw [h]
    decide
  · have h := (extract_nm_spec demoNumericTable).2.2.2.2.2.2.1 "007" 7 (by decide) (by decide)
    rw [h]
    decide
  · exact (extract_nm_spec demoNumericTable).2.2.2.2.2.2.2.1 "²" (by decide) (by decide)

lemma findKeyHit_nonblank (keys : List String) (kvs : List (String × PyVal)) (s : String)
    (h : findKeyHit keys kvs = some s) : isBlank s = false := by
  induction keys with
  | nil => simp [findKeyHit] at h
  | cons k krest ih =>
      rw [findKeyHit] at h
      rcases hv : pyGet kvs k with _ | b | n | t | xs | d <;> rw [hv] at h
      case str =>
        simp only [] at h
        by_cases hb : isBlank t = true
        · rw [if_neg (by simp [hb])] at h
          exact ih h
        · rw [if_pos (by simpa using hb)] at h
          cases h
          simpa using hb
      all_goals exact ih h

mutual
theorem findFirstString_nonblank (keys : List String) (v : PyVal) (s : String)
    (h : findFirstString keys v = some s) : isBlank s = false :=
  match v, h with
  | .dict kvs, h => by
      rw [findFirstString] at h
      rcases hk : findKeyHit keys kvs with _ | t
      · rw [hk] at h
        exact findFirstStringKVs_nonblank keys kvs s h
      · rw [hk] at h
        cases h
        exact findKeyHit_nonblank keys kvs s hk
  | .list xs, h => by
      rw [findFirstString] at h
      exact findFirstStringList_nonblank keys xs s h

theorem findFirstStringKVs_nonblank (keys : List String) (kvs : List (String × PyVal))
    (s : String) (h : findFirstStringKVs keys kvs = some s) : isBlank s = false :=
  match kvs, h with
  | (k₀, v) :: rest, h => by
      rw [findFirstStringKVs] at h
      rcases hv : findFirstString keys v with _ | t
      · rw [hv] at h
        exact findFirstStringKVs_nonblank keys rest s h
      · rw [hv] at h
        cases h
        exact findFirstString_nonblank keys v s hv

theorem findFirstStringList_nonblank (keys : List String) (xs : List PyVal)
    (s : String) (h : findFirstStringList keys xs = some s) : isBlank s = false :=
  match xs, h with
  | v :: rest, h => by
      rw [findFirstStringList] at h
      rcases hv : findFirstString keys v with _ | t
      · rw [hv] at h
        exact findFirstStringList_nonblank keys rest s h
      · rw [hv] at h
        cases h
        exact findFirstString_nonblank keys v s hv
end

lemma extractDescriptionFromBasket_nonblank (data : List (String × PyVal)) (s : String)
    (h : extractDescriptionFromBasket data = some s) : isBlank s = false := by
  rw [extractDescriptionFromBasket] at h
  rcases hv : pyGet data "description" with _ | b | n | t | xs | d <;> rw [hv] at h
  case str =>
    simp only [] at h
    by_cases hb : isBlank t = true
    · rw [if_neg (by simp [hb])] at h
      exact findFirstString_nonblank _ _ _ h
    · rw [if_pos (by simpa using hb)] at h
      cases h
      simpa using hb
  all_goals exact findFirstString_nonblank _ _ _ h

lemma isBlank_false_nonempty (s : String) (h : isBlank s = false) : s.data.isEmpty = false := by
  rcases hd : s.data with _ | ⟨c, rest⟩
  · rw [isBlank, hd] at h
    simp [stripChars] at h
  · rfl

/-- Direct-field-then-one-key-DFS shard description, as the amended claim
words it (the DFS within the Shard JSON payload uses only `description`). -/
def specShardDescription (info : List (String × PyVal)) : Option String :=
  match (match pyGet info "description" with
         | .str s => if !isBlank s then some s else Option.none
         | _ => Option.none) with
  | some s => some s
  | Option.none => findFirstString ["description"] (.dict info)

/-- Secondary-payload description, as the claim words it: the direct
`description` field, then each mapping entry of `data.products` /
`data.cards` / `data.list`, then the `data` object, then the top-level
payload, each with the four-key depth-first search. -/
def specSecondaryDescription (content : List (String × PyVal)) : Option String :=
  match (match pyGet content "description" with
         | .str s => if !isBlank s then some s else Option.none
         | _ => Option.none) with
  | some s => some s
  | Option.none =>
      match pyGet content "data" with
      | .dict nested =>
          (match contentKeysSearch nested ["products", "cards", "list"] with
           | some s => some s
           | Option.none =>
               match findFirstString fourKeys (.dict nested) with
               | some s => some s
               | Option.none => findFirstString fourKeys (.dict content))
      | _ => findFirstString fourKeys (.dict content)

/-- Description resolution order of the amended claim: shard payload first
(direct field, then one-key DFS), secondary payload only if that yields
nothing. -/
def specDescriptionResolution (info content : List (String × PyVal)) : Option String :=
  match specShardDescription info with
  | some s => some s
  | Option.none => specSecondaryDescription content

lemma specShardDescription_eq (info : List (String × PyVal)) :
    specShardDescription info = extractDescriptionFromBasket info := by
  rw [specShardDescription, extractDescriptionFromBasket]
  rcases hv : pyGet info "description" with _ | b | n | t | xs | d <;> simp only []
  case str =>
    by_cases hb : isBlank t = true
    · rw [if_neg (by simp [hb]), if_neg (by simp [hb])]
    · rw [if_pos (by simpa using hb), if_pos (by simpa using hb)]

lemma specSecondaryDescription_eq (content : List (String × PyVal)) :
    specSecondaryDescription content = extractDescriptionFromContent content := by
  rcases content with _ | ⟨kv, rest⟩
  · decide
  · rw [specSecondaryDescription, extractDescriptionFromContent,
      if_neg (by simp)]
    rcases hv : pyGet (kv :: rest) "description" with _ | b | n | t | xs | d <;> simp only []
    case str =>
      by_cases hb : isBlank t = true
      · simp [hb]
      · simp [hb]

/-- C1 (amended): description resolution follows the order — Shard JSON
top-level non-blank `description` string; otherwise a depth-first search over
the single key `description` within the Shard JSON payload; only if both
yield nothing is the Secondary API payload searched, first its direct
`description` field, then each mapping entry of
`data.products`/`data.cards`/`data.list`, then the `data` object, then the
top-level payload, each with the four-key depth-first search. -/
theorem descriptionResolutionOrder (info content : List (String × PyVal)) :
    resolveDescription info content = specDescriptionResolution info content := by
  rw [resolveDescription, specDescriptionResolution, specShardDescription_eq]
  rcases hb : extractDescriptionFromBasket info with _ | s
  · rw [specSecondaryDescription_eq]
    rfl
  · have hnb := extractDescriptionFromBasket_nonblank info s hb
    have hne := isBlank_false_nonempty s hnb
    simp [pyTruthyStr, hne]

/-- C1 counterexample: for the Shard JSON payload `{"a": {"text": "hi"}}`
(and an empty Secondary payload) the claim's four-key depth-first search over
the Shard JSON payload finds `"hi"`, yet the code resolves no description at
all — the shard-side search really uses only the key `description`. -/
theorem descriptionResolution_claim_counterexample :
    resolveDescription [("a", PyVal.dict [("text", PyVal.str "hi")])] [] = Option.none ∧
      findFirstString fourKeys
        (PyVal.dict [("a", PyVal.dict [("text", PyVal.str "hi")])]) = some "hi" := by
  decide

/-- C3: whenever the Shard JSON step yields a non-blank description, the
Secondary content API is never invoked in that pipeline run (its call count
is 0) and the `content_v2` entry of the final record's source bag is the
empty map. -/
theorem contentShortCircuit (net : Network) (nm_id : PyVal) (s : String)
    (h : extractDescriptionFromBasket (ensureMapping (net.info nm_id)) = some s) :
    (fetchProductRaw net nm_id).2 = 0 ∧
      lookupKey (fetchProductRaw net nm_id).1.sources "content_v2" = some (PyVal.dict []) := by
  have hnb := extractDescriptionFromBasket_nonblank _ s h
  have hne := isBlank_false_nonempty s hnb
  have htruthy : pyTruthyStr (extractDescriptionFromBasket (ensureMapping (net.info nm_id))) = true := by
    rw [h]
    simp [pyTruthyStr, hne]
  constructor
  · show (if pyTruthyStr (extractDescriptionFromBasket (ensureMapping (net.info nm_id))) = true
          then (0 : Nat) else 1) = 0
    rw [htruthy]
    rfl
  · show lookupKey
      [("card_api", PyVal.dict (ensureMapping (net.card nm_id))),
       ("info_card_json", PyVal.dict (ensureMapping (net.info nm_id))),
       ("content_v2", PyVal.dict
         (if pyTruthyStr (extractDescriptionFromBasket (ensureMapping (net.info nm_id))) = true
          then [] else ensureMapping (net.content nm_id)))] "content_v2" = some (PyVal.dict [])
    rw [htruthy]
    simp [lookupKey]

/-- Network oracle for the short-circuit witness: the shard endpoint delivers
a payload with a non-blank description. -/
def shortCircuitNet : Network :=
  ⟨fun _ => PyVal.dict [],
   fun _ => PyVal.dict [("description", PyVal.str "d")],
   fun _ => PyVal.dict [("description", PyVal.str "from content")]⟩

/-- C3 witness: the short-circuit at a concrete run. -/
theorem contentShortCircuit_witness :
    (fetchProductRaw shortCircuitNet (PyVal.int 5)).2 = 0 ∧
      lookupKey (fetchProductRaw shortCircuitNet (PyVal.int 5)).1.sources "content_v2" =
        some (PyVal.dict []) :=
  contentShortCircuit shortCircuitNet (PyVal.int 5) "d" (by decide)

/-- C10: for every batch, `collect_product_records` yields exactly one output
record per input identifier, and the record at position `i` is the one the
pipeline produces from the input at position `i` (input order is preserved by
the collection step, since `asyncio.gather` returns results in task order). -/
theorem collectRecordsOrdered (net : Network) (nm_ids : List PyVal) :
    (collect_product_records net nm_ids).length = nm_ids.length ∧
    ∀ i : Nat, (collect_product_records net nm_ids)[i]? =
      nm_ids[i]?.map (fun nm => ((fetchProductRaw net nm).1).toDict) := by
  refine ⟨List.length_map _ _, fun i => ?_⟩
  rw [collect_product_records, List.getElem?_map]

/-- An entry with no nested price mapping (skipped by the sizes scan). -/
def noPriceMapping : PyVal → Prop
  | .dict kvs => ∀ q, pyGet kvs "price" ≠ PyVal.dict q
  | _ => True

lemma sizesLoop_first_hit (l₁ l₂ : List PyVal) (e pr : List (String × PyVal))
    (hskip : ∀ x ∈ l₁, noPriceMapping x)
    (he : pyGet e "price" = PyVal.dict pr)
    (hsome : (basicFromPrice pr).isSome = true ∨ (saleFromPrice pr).isSome = true) :
    sizesLoop (l₁ ++ PyVal.dict e :: l₂) = (basicFromPrice pr, saleFromPrice pr) := by
  induction l₁ with
  | nil =>
      rw [List.nil_append, sizesLoop]
      simp only []
      rw [he]
      simp only []
      rw [if_pos (show ((basicFromPrice pr).isSome || (saleFromPrice pr).isSome) = true by
        rcases hsome with h | h <;> simp [h])]
  | cons x rest ih =>
      have hx := hskip x (List.mem_cons_self x rest)
      have hrest : ∀ y ∈ rest, noPriceMapping y := fun y hy =>
        hskip y (List.mem_cons_of_mem x hy)
      rw [List.cons_append]
      rcases x with _ | b | n | t | xs | kvs
      case dict =>
        rcases hq : pyGet kvs "price" with _ | b | n | t | xs | q
        case dict => exact absurd hq (hx q)
        all_goals
          simp only [sizesLoop, hq]
          exact ih hrest
      all_goals
        simp only [sizesLoop]
        exact ih hrest

/-- C2 (amended): if `priceU` extracts to nothing and the first `sizes`
entry containing a nested price mapping has `price.basic = "1200"`, the
merged record price is 1200, and when `salePriceU` is also absent the sale
price is filled from that same entry's `product`-or-`total` field; an
explicit nonzero `priceU` always wins over the derived value (an explicit
`priceU` of 0 is Python-falsy and is overridden by the derived value when
the derivation branch runs). -/
theorem priceMergeRules (p : List (String × PyVal)) :
    (∀ (l₁ l₂ : List PyVal) (e pr : List (String × PyVal)),
        extractInt p "priceU" = Option.none →
        pyGet p "sizes" = PyVal.list (l₁ ++ PyVal.dict e :: l₂) →
        (∀ x ∈ l₁, noPriceMapping x) →
        pyGet e "price" = PyVal.dict pr →
        pyGet pr "basic" = PyVal.str "1200" →
        (mergedPrices p).1 = some 1200 ∧
          (extractInt p "salePriceU" = Option.none →
            (mergedPrices p).2 = saleFromPrice pr)) ∧
    (∀ n : Int, extractInt p "priceU" = some n → n ≠ 0 → (mergedPrices p).1 = some n) := by
  constructor
  · intro l₁ l₂ e pr hpU hsizes hskip he hbasic
    have hb : basicFromPrice pr = some 1200 := by
      rw [basicFromPrice, hbasic]
      decide
    have hloop := sizesLoop_first_hit l₁ l₂ e pr hskip he (Or.inl (by simp [hb]))
    have hderived : extractPricesFromSizes (pyGet p "sizes") =
        (basicFromPrice pr, saleFromPrice pr) := by
      rw [hsizes, extractPricesFromSizes, hloop]
    rw [mergedPrices, hpU, hderived]
    constructor
    · simp [pyOrIntOpt, hb]
    · intro hsU
      rw [hsU]
      simp [pyOrIntOpt]
  · intro n hpU hn
    rw [mergedPrices, hpU]
    rcases hsU : extractInt p "salePriceU" with _ | m
    · simp [pyOrIntOpt, hn]
    · rw [if_neg (by simp)]

def priceClaimCexProduct : List (String × PyVal) :=
  [("priceU", PyVal.int 0),
   ("sizes", PyVal.list [PyVal.dict [("price", PyVal.dict [("basic", PyVal.str "1200")])]])]

/-- C2 counterexample: a product with the explicit value `priceU = 0` and a
derivable sizes price 1200 ends up with merged price 1200, not the explicit
0 — `price = price or derived_price` treats 0 as absent. -/
theorem priceMerge_claim_counterexample :
    extractInt priceClaimCexProduct "priceU" = some 0 ∧
      (mergedPrices priceClaimCexProduct).1 = some 1200 := by decide

def priceWitnessProduct : List (String × PyVal) :=
  [("sizes", PyVal.list [PyVal.dict
    [("price", PyVal.dict [("basic", PyVal.str "1200"), ("product", PyVal.str "900")])]])]

/-- C2 witness: the amended rules at a concrete derivable product and at a
product with explicit `priceU = 5`. -/
theorem priceMergeRules_witness :
    (mergedPrices priceWitnessProduct).1 = some 1200 ∧
      (mergedPrices priceWitnessProduct).2 = some 900 ∧
      (mergedPrices [("priceU", PyVal.int 5)]).1 = some 5 := by
  have h := (priceMergeRules priceWitnessProduct).1 []
    [] [("price", PyVal.dict [("basic", PyVal.str "1200"), ("product", PyVal.str "900")])]
    [("basic", PyVal.str "1200"), ("product", PyVal.str "900")]
    rfl rfl (by simp) rfl rfl
  refine ⟨h.1, ?_, (priceMergeRules [("priceU", PyVal.int 5)]).2 5 rfl (by norm_num)⟩
  have h2 := h.2 rfl
  rw [h2]
  decide

lemma dropWhile_head_not {α : Type} (p : α → Bool) (l : List α) :
    ∀ c, (l.dropWhile p).head? = some c → p c = false := by
  induction l with
  | nil => simp
  | cons a t ih =>
      intro c hc
      rw [List.dropWhile_cons] at hc
      by_cases hp : p a
      · rw [if_pos hp] at hc
        exact ih c hc
      · rw [if_neg hp] at hc
        simp only [List.head?_cons, Option.some.injEq] at hc
        subst hc
        simpa using hp

lemma dropWhile_eq_self_of_head {α : Type} (p : α → Bool) (l : List α)
    (h : ∀ c, l.head? = some c → p c = false) : l.dropWhile p = l := by
  cases l with
  | nil => rfl
  | cons a t =>
      rw [List.dropWhile_cons, if_neg]
      simp [h a rfl]

lemma dropWhile_getLast_eq {α : Type} (p : α → Bool) (l : List α)
    (h : l.dropWhile p ≠ []) : (l.dropWhile p).getLast? = l.getLast? := by
  induction l with
  | nil => simp [List.dropWhile] at h
  | cons a t ih =>
      rw [List.dropWhile_cons]
      by_cases hp : p a
      · rw [List.dropWhile_cons, if_pos hp] at h
        rw [if_pos hp, ih h]
        rcases ht : t with _ | ⟨b, t₂⟩
        · rw [ht] at h
          simp [List.dropWhile] at h
        · rw [List.getLast?_cons_cons]
      · rw [if_neg hp]

lemma stripChars_eq_self (l : List Char)
    (h1 : ∀ c, l.head? = some c → isPySpace c = false)
    (h2 : ∀ c, l.getLast? = some c → isPySpace c = false) : stripChars l = l := by
  rw [stripChars, dropWhile_eq_self_of_head _ _ h1,
    dropWhile_eq_self_of_head _ _ (fun c hc => h2 c (by rwa [List.head?_reverse] at hc)),
    List.reverse_reverse]

lemma stripChars_head_not (l : List Char) :
    ∀ c, (stripChars l).head? = some c → isPySpace c = false := by
  intro c hc
  rw [stripChars] at hc
  set A := l.dropWhile isPySpace with hA
  set B := A.reverse.dropWhile isPySpace with hB
  rw [List.head?_reverse] at hc
  have hBne : B ≠ [] := by
    intro hnil
    rw [hnil] at hc
    simp at hc
  rw [dropWhile_getLast_eq _ _ hBne, List.getLast?_reverse] at hc
  exact dropWhile_head_not _ _ c hc

lemma stripChars_getLast_not (l : List Char) :
    ∀ c, (stripChars l).getLast? = some c → isPySpace c = false := by
  intro c hc
  rw [stripChars, List.getLast?_reverse] at hc
  exact dropWhile_head_not _ _ c hc

lemma stripChars_idem (l : List Char) : stripChars (stripChars l) = stripChars l :=
  stripChars_eq_self _ (stripChars_head_not l) (stripChars_getLast_not l)

/-- A string with no surrounding whitespace and at least one character
(`value.strip()` leaves it unchanged). -/
def cleanStr (s : String) : Prop :=
  s.data ≠ [] ∧ (∀ c, s.data.head? = some c → isPySpace c = false) ∧
    (∀ c, s.data.getLast? = some c → isPySpace c = false)

lemma cleanStr_strip (s : String) (h : cleanStr s) : pyStrip s = s := by
  rw [pyStrip, stripChars_eq_self _ h.2.1 h.2.2]

lemma mem_of_head?_some {α : Type} {l : List α} {c : α} (h : l.head? = some c) : c ∈ l := by
  cases l with
  | nil => simp at h
  | cons a t =>
      simp only [List.head?_cons, Option.some.injEq] at h
      subst h
      exact List.mem_cons_self a t

lemma mem_of_getLast?_some {α : Type} {l : List α} {c : α} (h : l.getLast? = some c) :
    c ∈ l := by
  induction l with
  | nil => simp at h
  | cons a t ih =>
      rcases ht : t with _ | ⟨b, t₂⟩
      · subst ht
        simp only [List.getLast?_singleton, Option.some.injEq] at h
        subst h
        exact List.mem_cons_self a []
      · subst ht
        rw [List.getLast?_cons_cons] at h
        exact List.mem_cons_of_mem a (ih h)

lemma cleanStr_of_all (s : String) (hne : s.data.isEmpty = false)
    (h : s.data.all (fun c => !isPySpace c) = true) : cleanStr s := by
  have hmem : ∀ c ∈ s.data, isPySpace c = false := by
    intro c hc
    have := List.all_eq_true.mp h c hc
    simpa using this
  refine ⟨by simpa using hne, ?_, ?_⟩
  · intro c hc
    exact hmem c (mem_of_head?_some hc)
  · intro c hc
    exact hmem c (mem_of_getLast?_some hc)

lemma digitChar_not_space (d : Nat) : isPySpace (digitChar d) = false := by
  unfold digitChar
  split <;> decide

lemma natDigits_ne_nil (n : Nat) : natDigits n ≠ [] := by
  rw [natDigits]
  split
  · simp
  · simp

lemma natDigits_no_space (n : Nat) : ∀ c ∈ natDigits n, isPySpace c = false := by
  induction n using Nat.strong_induction_on with
  | _ n ih =>
      intro c hc
      rw [natDigits] at hc
      split at hc
      · simp only [List.mem_singleton] at hc
        subst hc
        exact digitChar_not_space n
      · rw [List.mem_append] at hc
        rcases hc with hc | hc
        · next h =>
            exact ih (n / 10) (Nat.div_lt_self (by omega) (by norm_num)) c hc
        · simp only [List.mem_singleton] at hc
          subst hc
          exact digitChar_not_space (n % 10)

lemma pyStrInt_clean (i : Int) : cleanStr (pyStrInt i) := by
  rw [pyStrInt]
  split
  · apply cleanStr_of_all
    · rfl
    · rw [List.all_eq_true]
      intro c hc
      simp only [String.data] at hc
      rcases List.mem_cons.mp hc with rfl | hc
      · decide
      · simp [natDigits_no_space _ c hc]
  · apply cleanStr_of_all
    · have := natDigits_ne_nil i.toNat
      show (natDigits i.toNat).isEmpty = false
      simpa using this
    · rw [List.all_eq_true]
      intro c hc
      simp [natDigits_no_space _ c hc]

lemma cleanStr_wrap (a b : Char) (mid : List Char) (ha : isPySpace a = false)
    (hb : isPySpace b = false) : cleanStr (String.mk ((a :: mid) ++ [b])) := by
  refine ⟨by simp, ?_, ?_⟩
  · intro c hc
    rw [show (String.mk ((a :: mid) ++ [b])).data = a :: (mid ++ [b]) from rfl,
      List.head?_cons] at hc
    cases hc
    exact ha
  · intro c hc
    rw [show (String.mk ((a :: mid) ++ [b])).data = (a :: mid) ++ [b] from rfl,
      List.getLast?_concat] at hc
    cases hc
    exact hb

lemma pyReprOf_clean (v : PyVal) : cleanStr (pyReprOf v) := by
  cases v with
  | none => exact cleanStr_of_all _ (by decide) (by decide)
  | bool b => cases b <;> exact cleanStr_of_all _ (by decide) (by decide)
  | int n => exact pyStrInt_clean n
  | str s => exact cleanStr_wrap '\x27' '\x27' s.data (by decide) (by decide)
  | list xs => exact cleanStr_wrap '[' ']' (pyReprList xs).data (by decide) (by decide)
  | dict kvs => exact cleanStr_wrap '\x7b' '\x7d' (pyReprKVs kvs).data (by decide) (by decide)

lemma normalizeString_clean (v : PyVal) (s : String) (h : normalizeString v = some s) :
    s.data ≠ [] ∧ pyStrip s = s := by
  cases v with
  | none => simp [normalizeString] at h
  | str t =>
      rw [normalizeString] at h
      by_cases he : (pyStrip t).data.isEmpty = true
      · rw [if_pos he] at h
        cases h
      · rw [if_neg he] at h
        cases h
        refine ⟨by simpa using he, ?_⟩
        show String.mk (stripChars (String.mk (stripChars t.data)).data) = _
        rw [show (String.mk (stripChars t.data)).data = stripChars t.data from rfl,
          stripChars_idem]
        exact rfl
  | bool b =>
      cases h
      exact ⟨(pyReprOf_clean (.bool b)).1, cleanStr_strip _ (pyReprOf_clean (.bool b))⟩
  | int n =>
      cases h
      exact ⟨(pyReprOf_clean (.int n)).1, cleanStr_strip _ (pyReprOf_clean (.int n))⟩
  | list xs =>
      cases h
      exact ⟨(pyReprOf_clean (.list xs)).1, cleanStr_strip _ (pyReprOf_clean (.list xs))⟩
  | dict kvs =>
      cases h
      exact ⟨(pyReprOf_clean (.dict kvs)).1, cleanStr_strip _ (pyReprOf_clean (.dict kvs))⟩

lemma contentEntriesSearch_nonblank (xs : List PyVal) (s : String)
    (h : contentEntriesSearch xs = some s) : isBlank s = false := by
  induction xs with
  | nil => simp [contentEntriesSearch] at h
  | cons x rest ih =>
      rcases x with _ | b | n | t | ys | kvs
      case dict =>
        rw [show contentEntriesSearch (PyVal.dict kvs :: rest) =
            (match findFirstString fourKeys (PyVal.dict kvs) with
             | some s => some s
             | Option.none => contentEntriesSearch rest) from rfl] at h
        rcases hf : findFirstString fourKeys (PyVal.dict kvs) with _ | t
        · rw [hf] at h
          exact ih h
        · rw [hf] at h
          cases h
          exact findFirstString_nonblank _ _ _ hf
      all_goals exact ih h

lemma contentKeysSearch_nonblank (nested : List (String × PyVal)) (keys : List String)
    (s : String) (h : contentKeysSearch nested keys = some s) : isBlank s = false := by
  induction keys with
  | nil => simp [contentKeysSearch] at h
  | cons k krest ih =>
      rw [contentKeysSearch] at h
      rcases hv : pyGet nested k with _ | b | n | t | entries | d <;> rw [hv] at h
      case list =>
        simp only [] at h
        rcases he : contentEntriesSearch entries with _ | t
        · rw [he] at h
          exact ih h
        · rw [he] at h
          cases h
          exact contentEntriesSearch_nonblank _ _ he
      all_goals exact ih h

lemma extractDescriptionFromContent_nonblank (data : List (String × PyVal)) (s : String)
    (h : extractDescriptionFromContent data = some s) : isBlank s = false := by
  rw [extractDescriptionFromContent] at h
  by_cases hd : data.isEmpty = true
  · rw [if_pos hd] at h
    cases h
  · rw [if_neg hd] at h
    simp only [] at h
    have hafter : ∀ (h₂ : (match pyGet data "data" with
        | PyVal.dict nested =>
            (match contentKeysSearch nested ["products", "cards", "list"] with
             | some s => some s
             | Option.none =>
                 match findFirstString fourKeys (PyVal.dict nested) with
                 | some s => some s
                 | Option.none => findFirstString fourKeys (PyVal.dict data))
        | _ => findFirstString fourKeys (PyVal.dict data)) = some s), isBlank s = false := by
      intro h₂
      rcases hn : pyGet data "data" with _ | b | n | t | xs | nested <;> rw [hn] at h₂
      case dict =>
        simp only [] at h₂
        rcases hk : contentKeysSearch nested ["products", "cards", "list"] with _ | t <;>
          rw [hk] at h₂
        · rcases hf : findFirstString fourKeys (PyVal.dict nested) with _ | t <;>
            rw [hf] at h₂
          · exact findFirstString_nonblank _ _ _ h₂
          · cases h₂
            exact findFirstString_nonblank _ _ _ hf
        · cases h₂
          exact contentKeysSearch_nonblank _ _ _ hk
      all_goals exact findFirstString_nonblank _ _ _ h₂
    rcases hv : pyGet data "description" with _ | b | n | t | xs | d <;> rw [hv] at h
    · exact hafter h
    · exact hafter h
    · exact hafter h
    · simp only [] at h
      by_cases hb : isBlank t = true
      · rw [if_neg (by simp [hb])] at h
        exact hafter h
      · rw [if_pos (by simpa using hb)] at h
        cases h
        simpa using hb
    · exact hafter h
    · exact hafter h

lemma resolveDescription_nonblank (info content : List (String × PyVal)) (s : String)
    (h : resolveDescription info content = some s) : isBlank s = false := by
  rw [resolveDescription] at h
  by_cases ht : pyTruthyStr (extractDescriptionFromBasket info) = true
  · rw [if_pos ht] at h
    exact extractDescriptionFromBasket_nonblank info s h
  · rw [if_neg ht] at h
    exact extractDescriptionFromContent_nonblank content s h

/-- C9 (amended): in every produced record the text fields name, brand,
supplier and description are never the empty string (absence is `None`,
never `\"\"`); name, brand and supplier are trimmed of surrounding
whitespace; description is always non-blank but is returned verbatim and may
retain surrounding whitespace. -/
theorem textFieldInvariants (net : Network) (nm_id : PyVal) :
    (∀ s, (fetchProductRaw net nm_id).1.name = some s → s.data ≠ [] ∧ pyStrip s = s) ∧
    (∀ s, (fetchProductRaw net nm_id).1.brand = some s → s.data ≠ [] ∧ pyStrip s = s) ∧
    (∀ s, (fetchProductRaw net nm_id).1.supplier = some s → s.data ≠ [] ∧ pyStrip s = s) ∧
    (∀ s, (fetchProductRaw net nm_id).1.description = some s →
        isBlank s = false ∧ s.data ≠ []) := by
  have hname : (fetchProductRaw net nm_id).1.name =
      (if productTruthy (extractPrimaryProduct (ensureMapping (net.card nm_id))) = true
       then normalizeString
         (pyGet ((extractPrimaryProduct (ensureMapping (net.card nm_id))).getD []) "name")
       else Option.none) := rfl
  have hbrand : (fetchProductRaw net nm_id).1.brand =
      (if productTruthy (extractPrimaryProduct (ensureMapping (net.card nm_id))) = true
       then normalizeString
         (pyGet ((extractPrimaryProduct (ensureMapping (net.card nm_id))).getD []) "brand")
       else Option.none) := rfl
  have hsupplier : (fetchProductRaw net nm_id).1.supplier =
      (if productTruthy (extractPrimaryProduct (ensureMapping (net.card nm_id))) = true
       then normalizeString
         (pyGet ((extractPrimaryProduct (ensureMapping (net.card nm_id))).getD []) "supplier")
       else Option.none) := rfl
  have hdesc : (fetchProductRaw net nm_id).1.description =
      resolveDescription (ensureMapping (net.info nm_id))
        (if pyTruthyStr (extractDescriptionFromBasket (ensureMapping (net.info nm_id))) = true
         then [] else ensureMapping (net.content nm_id)) := rfl
  refine ⟨?_, ?_, ?_, ?_⟩
  · intro s hs
    rw [hname] at hs
    by_cases hp : productTruthy (extractPrimaryProduct (ensureMapping (net.card nm_id))) = true
    · rw [if_pos hp] at hs
      exact normalizeString_clean _ s hs
    · rw [if_neg hp] at hs
      cases hs
  · intro s hs
    rw [hbrand] at hs
    by_cases hp : productTruthy (extractPrimaryProduct (ensureMapping (net.card nm_id))) = true
    · rw [if_pos hp] at hs
      exact normalizeString_clean _ s hs
    · rw [if_neg hp] at hs
      cases hs
  · intro s hs
    rw [hsupplier] at hs
    by_cases hp : productTruthy (extractPrimaryProduct (ensureMapping (net.card nm_id))) = true
    · rw [if_pos hp] at hs
      exact normalizeString_clean _ s hs
    · rw [if_neg hp] at hs
      cases hs
  · intro s hs
    rw [hdesc] at hs
    have hb := resolveDescription_nonblank _ _ s hs
    refine ⟨hb, ?_⟩
    have := isBlank_false_nonempty s hb
    simpa using this

def untrimmedNet : Network :=
  ⟨fun _ => PyVal.dict [],
   fun _ => PyVal.dict [("description", PyVal.str " hi ")],
   fun _ => PyVal.dict []⟩

/-- C9 counterexample: a Shard JSON description `\" hi \"` passes the
non-blank check and is stored verbatim in the record, untrimmed. -/
theorem textFields_claim_counterexample :
    (fetchProductRaw untrimmedNet (PyVal.int 5)).1.description = some " hi " ∧
      pyStrip " hi " ≠ " hi " := by decide

def trimmedNet : Network :=
  ⟨fun _ => PyVal.dict [("data", PyVal.dict [("products",
      PyVal.list [PyVal.dict [("name", PyVal.str " x ")]])])],
   fun _ => PyVal.dict [("description", PyVal.str "d")],
   fun _ => PyVal.dict []⟩

/-- C9 witness: the name invariant at a record whose payload name was
`\" x \"` (stored as the trimmed, non-empty `\"x\"`). -/
theorem textFieldInvariants_witness :
    ("x" : String).data ≠ [] ∧ pyStrip "x" = "x" :=
  (textFieldInvariants trimmedNet (PyVal.int 5)).1 "x" (by decide)
